import Mathlib

/-!
Shallow embedding of the VirtualTerminal class from src/virtual-terminal.js
(Konard/telegram-terminal-bot), together with proofs about the claims of the
specification.

Modelling conventions:
* JavaScript numbers holding cursor coordinates and scroll-region bounds are
  modelled as Int (they can go negative, e.g. bottom - 1 for bottom = 0).
  Terminal dimensions are Nat (constructor and resize arguments).
* The screen buffer is a List of rows, each a List of Cell. A JavaScript
  assignment buffer[y][x] = v with x equal to the row length extends the row
  by one element (JS arrays grow on out-of-range index assignment); rowSet
  models exactly that contiguous growth. A write at an index strictly beyond
  the length would create holes in JS; that never happens here because every
  loop writes ascending contiguous indices, and rowSet leaves the row
  unchanged in that case. An access buffer[y] with y outside the row range
  throws in JS; such states are unreachable in the runs the theorems below
  quantify over, and the model treats those accesses as no-ops.
* Listeners are modelled as inert records carrying an identity and a flag
  saying whether the callback throws when invoked; invocation is an Except
  value and the try/catch of notifyChangeListeners is an explicit match.
  The ghost fields firedEvents and deliveryLog record the observable event
  traffic: one ChangeData per fired event, one (listener id, ChangeData)
  pair per listener invocation.
* The JS constructor builds the buffer before this.currentAttr is assigned,
  so the spread of the still-undefined attribute yields empty attribute
  objects on the initial cells; since no claim observes attributes (toString
  drops them) the model simply uses the default attribute there.
-/

namespace VT

structure Attr where
  fg : String
  bg : String
  bold : Bool
  underline : Bool
  reverse : Bool
deriving DecidableEq

def defaultAttr : Attr := ⟨"white", "black", false, false, false⟩

structure Cell where
  char : Char
  attr : Attr
deriving DecidableEq

structure Pos where
  x : Int
  y : Int
deriving DecidableEq

structure ScrollRegion where
  top : Int
  bottom : Int
deriving DecidableEq

inductive PMode where
  | normal
  | escape
  | csi
  | osc
deriving DecidableEq

structure ParseState where
  state : PMode
  params : List Int
  current : String
  intermediate : String
deriving DecidableEq

abbrev Buffer := List (List Cell)

structure SavedScreen where
  buffer : Buffer
  cursor : Pos
deriving DecidableEq

structure Listener where
  id : Nat
  throws : Bool
deriving DecidableEq

structure ChangeData where
  frameNumber : Nat
  screenBefore : String
  screenAfter : String
  cursorPosition : Pos
  inputData : List Char
deriving DecidableEq

structure VTState where
  cols : Nat
  rows : Nat
  buffer : Buffer
  cursor : Pos
  savedCursor : Pos
  cursorVisible : Bool
  scrollRegion : ScrollRegion
  altScreenBuffer : Option SavedScreen
  isAltScreen : Bool
  currentAttr : Attr
  parseState : ParseState
  frameCounter : Nat
  hasChangedSinceLastCheck : Bool
  changeListeners : List Listener
  firedEvents : List ChangeData
  deliveryLog : List (Nat × ChangeData)
deriving DecidableEq

/-- Blank cell written by erase and clear operations (char is a space, the
attribute is the one current at the time of the write). -/
def blankCell (a : Attr) : Cell := ⟨' ', a⟩

def blankRow (cols : Nat) (a : Attr) : List Cell := List.replicate cols (blankCell a)

/-- createEmptyBuffer from the source: rows of cols blank cells. -/
def createEmptyBuffer (cols rows : Nat) (a : Attr) : Buffer :=
  List.replicate rows (blankRow cols a)

/-- Read row y of the buffer; JS buffer[y] for an out-of-range y is
undefined, which is only dereferenced in unreachable states; the model
returns the empty row there. -/
def getRow (b : Buffer) (y : Int) : List Cell :=
  if 0 ≤ y then b.getD y.toNat [] else []

/-- Replace row y wholesale (JS this.buffer[y] = row). -/
def setRow (b : Buffer) (y : Int) (row : List Cell) : Buffer :=
  if 0 ≤ y then b.set y.toNat row else b

/-- JS row[i] = c: in-range assignment replaces, assignment at i = length
appends (array growth). Assignment beyond that would create holes and is
modelled as a no-op; all call sites write ascending contiguous indices. -/
def rowSet (row : List Cell) (i : Nat) (c : Cell) : List Cell :=
  if i < row.length then row.set i c
  else if i = row.length then row ++ [c]
  else row

/-- JS this.buffer[y][x] = c for in-range y; used by printChar where
0 ≤ x < cols always holds. -/
def setCell (b : Buffer) (y x : Int) (c : Cell) : Buffer :=
  if 0 ≤ y ∧ 0 ≤ x then
    setRow b y (rowSet (getRow b y) x.toNat c)
  else b

/-- Indices start..stop-1 as naturals (the JS loop for (x = start; x < stop)). -/
def natRangeI (start : Int) (stop : Nat) : List Nat :=
  (List.range stop).filter (fun i => start ≤ (i : Int))

def writeBlanks (a : Attr) (row : List Cell) (idxs : List Nat) : List Cell :=
  idxs.foldl (fun r i => rowSet r i (blankCell a)) row

/-- clearLine from the source: writes a blank cell at every x < cols of row y. -/
def clearRow (cols : Nat) (a : Attr) (row : List Cell) : List Cell :=
  writeBlanks a row (List.range cols)

def clearLineBuf (cols : Nat) (a : Attr) (b : Buffer) (y : Int) : Buffer :=
  setRow b y (clearRow cols a (getRow b y))

/-- The ascending row-copy loop of scrollUp and deleteLines:
for n iterations, buffer[y] = buffer[y+1] (reading the current buffer, as
the sequential JS loop does). -/
def copyUpLoop : Buffer → Int → Nat → Buffer
  | b, _, 0 => b
  | b, y, n + 1 => copyUpLoop (setRow b y (getRow b (y + 1))) (y + 1) n

/-- The descending row-copy loop of scrollDown and insertLines:
for n iterations, buffer[y] = buffer[y-1]. -/
def copyDownLoop : Buffer → Int → Nat → Buffer
  | b, _, 0 => b
  | b, y, n + 1 => copyDownLoop (setRow b y (getRow b (y - 1))) (y - 1) n

def iterN (f : Buffer → Buffer) : Nat → Buffer → Buffer
  | 0, b => b
  | n + 1, b => iterN f n (f b)

/-- One step of scrollUp: shift rows top..bottom-1 up, blank the bottom row. -/
def scrollUpOnce (cols : Nat) (a : Attr) (sr : ScrollRegion) (b : Buffer) : Buffer :=
  clearLineBuf cols a (copyUpLoop b sr.top (sr.bottom - sr.top).toNat) sr.bottom

/-- One step of scrollDown: shift rows top+1..bottom down, blank the top row. -/
def scrollDownOnce (cols : Nat) (a : Attr) (sr : ScrollRegion) (b : Buffer) : Buffer :=
  clearLineBuf cols a (copyDownLoop b sr.bottom (sr.bottom - sr.top).toNat) sr.top

/-- One step of insertLines: shift rows cursor.y+1..bottom down, blank the cursor row. -/
def insertOnce (cols : Nat) (a : Attr) (sr : ScrollRegion) (cy : Int) (b : Buffer) : Buffer :=
  clearLineBuf cols a (copyDownLoop b sr.bottom (sr.bottom - cy).toNat) cy

/-- One step of deleteLines: shift rows cursor.y..bottom-1 up, blank the bottom row. -/
def deleteOnce (cols : Nat) (a : Attr) (sr : ScrollRegion) (cy : Int) (b : Buffer) : Buffer :=
  clearLineBuf cols a (copyUpLoop b cy (sr.bottom - cy).toNat) sr.bottom

/-- One step of deleteCharacters: shift the cursor row left from x0,
blank the last column. The fold reads the current row at x+1, which the
ascending write order leaves untouched until after it is read, exactly as
the sequential JS loop does. -/
def delCharOnce (cols : Nat) (a : Attr) (x0 : Int) (row : List Cell) : List Cell :=
  let shifted := (natRangeI x0 (cols - 1)).foldl
    (fun r x => rowSet r x (r.getD (x + 1) (blankCell a))) row
  rowSet shifted (cols - 1) (blankCell a)

def iterRow (f : List Cell → List Cell) : Nat → List Cell → List Cell
  | 0, r => r
  | n + 1, r => iterRow f n (f r)

/- Cursor movement methods. -/

def moveCursorUp (s : VTState) (count : Int) : VTState :=
  { s with cursor := ⟨s.cursor.x, max 0 (s.cursor.y - count)⟩ }

def moveCursorDown (s : VTState) (count : Int) : VTState :=
  { s with cursor := ⟨s.cursor.x, min ((s.rows : Int) - 1) (s.cursor.y + count)⟩ }

def moveCursorRight (s : VTState) (count : Int) : VTState :=
  { s with cursor := ⟨min ((s.cols : Int) - 1) (s.cursor.x + count), s.cursor.y⟩ }

def moveCursorLeft (s : VTState) (count : Int) : VTState :=
  { s with cursor := ⟨max 0 (s.cursor.x - count), s.cursor.y⟩ }

def setCursorPosition (s : VTState) (col row : Int) : VTState :=
  { s with cursor := ⟨max 0 (min ((s.cols : Int) - 1) (col - 1)),
                      max 0 (min ((s.rows : Int) - 1) (row - 1))⟩ }

def saveCursor (s : VTState) : VTState := { s with savedCursor := s.cursor }

def restoreCursor (s : VTState) : VTState := { s with cursor := s.savedCursor }

/- Scrolling operations. -/

def scrollUpN (s : VTState) (count : Int) : VTState :=
  { s with buffer :=
      iterN (scrollUpOnce s.cols s.currentAttr s.scrollRegion) count.toNat s.buffer }

def scrollDownN (s : VTState) (count : Int) : VTState :=
  { s with buffer :=
      iterN (scrollDownOnce s.cols s.currentAttr s.scrollRegion) count.toNat s.buffer }

def insertLines (s : VTState) (count : Int) : VTState :=
  { s with buffer :=
      iterN (insertOnce s.cols s.currentAttr s.scrollRegion s.cursor.y) count.toNat s.buffer }

def deleteLines (s : VTState) (count : Int) : VTState :=
  { s with buffer :=
      iterN (deleteOnce s.cols s.currentAttr s.scrollRegion s.cursor.y) count.toNat s.buffer }

def deleteCharacters (s : VTState) (count : Int) : VTState :=
  let row := iterRow (delCharOnce s.cols s.currentAttr s.cursor.x) count.toNat
    (getRow s.buffer s.cursor.y)
  { s with buffer := setRow s.buffer s.cursor.y row }

/- Line operations. -/

/-- lineFeed: x is set to 0 (the documented CR-merge quirk); at the last
buffer row the scroll region is scrolled, otherwise y advances. -/
def lineFeed (s : VTState) : VTState :=
  let s0 := { s with cursor := ⟨0, s.cursor.y⟩ }
  if s0.cursor.y ≥ (s0.rows : Int) - 1 then scrollUpN s0 1
  else { s0 with cursor := ⟨0, s0.cursor.y + 1⟩ }

def carriageReturn (s : VTState) : VTState :=
  { s with cursor := ⟨0, s.cursor.y⟩ }

def nextLine (s : VTState) : VTState := lineFeed (carriageReturn s)

def tab (s : VTState) : VTState :=
  { s with cursor := ⟨min (Int.fdiv s.cursor.x 8 * 8 + 8) ((s.cols : Int) - 1), s.cursor.y⟩ }

def index (s : VTState) : VTState := lineFeed s

def reverseIndex (s : VTState) : VTState :=
  if s.cursor.y ≤ s.scrollRegion.top then scrollDownN s 1
  else { s with cursor := ⟨s.cursor.x, s.cursor.y - 1⟩ }

/- Character printing. -/

def printChar (s : VTState) (c : Char) : VTState :=
  let s1 := if s.cursor.x ≥ (s.cols : Int)
    then lineFeed { s with cursor := ⟨0, s.cursor.y⟩ }
    else s
  { s1 with
    buffer := setCell s1.buffer s1.cursor.y s1.cursor.x ⟨c, s1.currentAttr⟩,
    cursor := ⟨s1.cursor.x + 1, s1.cursor.y⟩ }

/- Erase operations. -/

def eraseInLine (s : VTState) (mode : Int) : VTState :=
  let y := s.cursor.y
  if mode = 0 then
    let row := writeBlanks s.currentAttr (getRow s.buffer y) (natRangeI s.cursor.x s.cols)
    { s with buffer := setRow s.buffer y row }
  else if mode = 1 then
    let row := writeBlanks s.currentAttr (getRow s.buffer y)
      (List.range ((s.cursor.x + 1).toNat))
    { s with buffer := setRow s.buffer y row }
  else if mode = 2 then
    { s with buffer := clearLineBuf s.cols s.currentAttr s.buffer y }
  else s

def clearScreen (s : VTState) : VTState :=
  { s with buffer := createEmptyBuffer s.cols s.rows s.currentAttr, cursor := ⟨0, 0⟩ }

def eraseInDisplay (s : VTState) (mode : Int) : VTState :=
  if mode = 0 then
    let s1 := eraseInLine s 0
    let nb := (natRangeI (s1.cursor.y + 1) s1.rows).foldl
      (fun b y => clearLineBuf s1.cols s1.currentAttr b (y : Int)) s1.buffer
    { s1 with buffer := nb }
  else if mode = 1 then
    let nb := ((List.range s.rows).filter (fun i => (i : Int) < s.cursor.y)).foldl
      (fun b y => clearLineBuf s.cols s.currentAttr b (y : Int)) s.buffer
    eraseInLine { s with buffer := nb } 1
  else if mode = 2 then
    clearScreen s
  else s

/- Terminal modes and settings. -/

def setScrollRegion (s : VTState) (top bottom : Int) : VTState :=
  let newTop := max 0 (top - 1)
  { s with scrollRegion := ⟨newTop, min ((s.rows : Int) - 1) (bottom - 1)⟩,
           cursor := ⟨0, newTop⟩ }

def sgrStep (a : Attr) (p : Int) : Attr :=
  if p = 0 then defaultAttr
  else if p = 1 then { a with bold := true }
  else if p = 4 then { a with underline := true }
  else if p = 7 then { a with reverse := true }
  else if p = 22 then { a with bold := false }
  else if p = 24 then { a with underline := false }
  else if p = 27 then { a with reverse := false }
  else if p = 30 then { a with fg := "black" }
  else if p = 31 then { a with fg := "red" }
  else if p = 32 then { a with fg := "green" }
  else if p = 33 then { a with fg := "yellow" }
  else if p = 34 then { a with fg := "blue" }
  else if p = 35 then { a with fg := "magenta" }
  else if p = 36 then { a with fg := "cyan" }
  else if p = 37 then { a with fg := "white" }
  else if p = 40 then { a with bg := "black" }
  else if p = 41 then { a with bg := "red" }
  else if p = 42 then { a with bg := "green" }
  else if p = 43 then { a with bg := "yellow" }
  else if p = 44 then { a with bg := "blue" }
  else if p = 45 then { a with bg := "magenta" }
  else if p = 46 then { a with bg := "cyan" }
  else if p = 47 then { a with bg := "white" }
  else a

def setGraphicRendition (s : VTState) (params : List Int) : VTState :=
  { s with currentAttr := (if params = [] then [0] else params).foldl sgrStep s.currentAttr }

/- Alternative screen buffer. -/

def enableAltScreen (s : VTState) : VTState :=
  if s.isAltScreen then s
  else clearScreen
    { s with altScreenBuffer := some ⟨s.buffer, s.cursor⟩, isAltScreen := true }

def disableAltScreen (s : VTState) : VTState :=
  match s.altScreenBuffer with
  | some saved =>
      if s.isAltScreen then
        { s with buffer := saved.buffer, cursor := saved.cursor,
                 altScreenBuffer := none, isAltScreen := false }
      else s
  | none => s

def setModeStep (inter : String) (s : VTState) (p : Int) : VTState :=
  if inter = "?" then
    if p = 25 then { s with cursorVisible := true }
    else if p = 1049 then enableAltScreen s
    else s
  else s

def setMode (s : VTState) (params : List Int) (inter : String) : VTState :=
  params.foldl (setModeStep inter) s

def resetModeStep (inter : String) (s : VTState) (p : Int) : VTState :=
  if inter = "?" then
    if p = 25 then { s with cursorVisible := false }
    else if p = 1049 then disableAltScreen s
    else s
  else s

def resetMode (s : VTState) (params : List Int) (inter : String) : VTState :=
  params.foldl (resetModeStep inter) s

/-- reset from the source. The buffer is rebuilt with the attribute current
at the moment of the call (createEmptyBuffer runs before currentAttr is
reassigned); the frame counter, listener set, unread-change flag and parse
state are not touched. -/
def reset (s : VTState) : VTState :=
  { s with buffer := createEmptyBuffer s.cols s.rows s.currentAttr,
           cursor := ⟨0, 0⟩, savedCursor := ⟨0, 0⟩,
           scrollRegion := ⟨0, (s.rows : Int) - 1⟩,
           currentAttr := defaultAttr,
           cursorVisible := true,
           isAltScreen := false,
           altScreenBuffer := none }

/- Output. -/

def rowString (r : List Cell) : String := String.mk (r.map (fun c => c.char))

/-- toString from the source: rows joined by a line break, attributes dropped. -/
def renderScreen (s : VTState) : String :=
  String.intercalate "\n" (s.buffer.map rowString)

def getScreenText (s : VTState) : String := renderScreen s

def rowChars (s : VTState) (y : Nat) : List Char :=
  (s.buffer.getD y []).map (fun c => c.char)

/- CSI dispatch. -/

def getP (ps : List Int) (i : Nat) (d : Int) : Int :=
  match ps.get? i with
  | none => d
  | some v => if v = 0 then d else v

def handleCSISequence (s : VTState) (c : Char) (ps : List Int) (inter : String) : VTState :=
  if c = 'A' then moveCursorUp s (getP ps 0 1)
  else if c = 'B' then moveCursorDown s (getP ps 0 1)
  else if c = 'C' then moveCursorRight s (getP ps 0 1)
  else if c = 'D' then moveCursorLeft s (getP ps 0 1)
  else if c = 'H' ∨ c = 'f' then setCursorPosition s (getP ps 1 1) (getP ps 0 1)
  else if c = 'J' then eraseInDisplay s (getP ps 0 0)
  else if c = 'K' then eraseInLine s (getP ps 0 0)
  else if c = 'L' then insertLines s (getP ps 0 1)
  else if c = 'M' then deleteLines s (getP ps 0 1)
  else if c = 'P' then deleteCharacters s (getP ps 0 1)
  else if c = 'S' then scrollUpN s (getP ps 0 1)
  else if c = 'T' then scrollDownN s (getP ps 0 1)
  else if c = 'd' then setCursorPosition s (s.cursor.x + 1) (getP ps 0 1)
  else if c = 'G' then setCursorPosition s (getP ps 0 1) (s.cursor.y + 1)
  else if c = 'r' then setScrollRegion s (getP ps 0 1) (getP ps 1 (s.rows : Int))
  else if c = 'm' then setGraphicRendition s ps
  else if c = 'h' then setMode s ps inter
  else if c = 'l' then resetMode s ps inter
  else if c = 's' then saveCursor s
  else if c = 'u' then restoreCursor s
  else s

/- Parser. -/

def digitsVal : List Char → Nat → Nat
  | [], acc => acc
  | c :: cs, acc => digitsVal cs (acc * 10 + (c.toNat - 48))

/-- parseInt(current) || 0 on a digit accumulator: the current buffer only
ever holds decimal digits, so this is the decimal value, and 0 for the
empty buffer (parseInt of the empty string is NaN, which the JS
or-with-zero turns into 0). -/
def paramVal (str : String) : Int := (digitsVal str.toList 0 : Nat)

def isDigitCode (n : Nat) : Bool := 48 ≤ n && n ≤ 57

def isIntermediateCode (n : Nat) : Bool := 32 ≤ n && n ≤ 47

/-- The params list at dispatch time: pending current is flushed if nonempty. -/
def flushParams (p : ParseState) : List Int :=
  p.params ++ (if p.current = "" then [] else [paramVal p.current])

def handleNormalChar (s : VTState) (c : Char) : VTState :=
  let code := c.toNat
  if code = 0x1B then { s with parseState := ⟨PMode.escape, [], "", ""⟩ }
  else if code = 0x08 then moveCursorLeft s 1
  else if code = 0x09 then tab s
  else if code = 0x0A then lineFeed s
  else if code = 0x0D then carriageReturn s
  else if code = 0x07 then s
  else if 32 ≤ code then printChar s c
  else s

def handleEscapeChar (s : VTState) (c : Char) : VTState :=
  if c = '[' then { s with parseState := { s.parseState with state := PMode.csi } }
  else if c = ']' then { s with parseState := { s.parseState with state := PMode.osc } }
  else if c = 'D' then
    { index s with parseState := { s.parseState with state := PMode.normal } }
  else if c = 'M' then
    { reverseIndex s with parseState := { s.parseState with state := PMode.normal } }
  else if c = 'E' then
    { nextLine s with parseState := { s.parseState with state := PMode.normal } }
  else if c = '7' then
    { saveCursor s with parseState := { s.parseState with state := PMode.normal } }
  else if c = '8' then
    { restoreCursor s with parseState := { s.parseState with state := PMode.normal } }
  else if c = 'c' then
    { reset s with parseState := { s.parseState with state := PMode.normal } }
  else { s with parseState := { s.parseState with state := PMode.normal } }

def handleCSIChar (s : VTState) (c : Char) : VTState :=
  let code := c.toNat
  if isDigitCode code then
    { s with parseState := { s.parseState with current := s.parseState.current.push c } }
  else if c = ';' then
    { s with parseState := { s.parseState with
        params := s.parseState.params ++ [paramVal s.parseState.current], current := "" } }
  else if isIntermediateCode code then
    { s with parseState := { s.parseState with
        intermediate := s.parseState.intermediate.push c } }
  else if c = '?' then
    { s with parseState := { s.parseState with
        intermediate := s.parseState.intermediate.push c } }
  else
    let ps := flushParams s.parseState
    let s1 := handleCSISequence s c ps s.parseState.intermediate
    { s1 with parseState := ⟨PMode.normal, ps, s.parseState.current, s.parseState.intermediate⟩ }

def handleOSCChar (s : VTState) (c : Char) : VTState :=
  if c.toNat = 0x07 ∨ c = '\\' then
    { s with parseState := { s.parseState with state := PMode.normal } }
  else s

def processChar (s : VTState) (c : Char) : VTState :=
  match s.parseState.state with
  | PMode.normal => handleNormalChar s c
  | PMode.escape => handleEscapeChar s c
  | PMode.csi => handleCSIChar s c
  | PMode.osc => handleOSCChar s c

def processChars (s : VTState) (data : List Char) : VTState :=
  data.foldl processChar s

/- Change subscription system. -/

def invokeListener (l : Listener) (_cd : ChangeData) : Except String Unit :=
  if l.throws then Except.error "listener error" else Except.ok ()

/-- notifyChangeListeners: invoke each listener in registration order inside
a try/catch; an error is logged and discarded, the loop continues. Returns
the delivery trace. -/
def notifyLoop : List Listener → ChangeData → List (Nat × ChangeData)
  | [], _ => []
  | l :: rest, cd =>
    match invokeListener l cd with
    | Except.ok _ => (l.id, cd) :: notifyLoop rest cd
    | Except.error _ => (l.id, cd) :: notifyLoop rest cd

/-- onScreenChange adds to a JS Set: insertion order, re-adding an already
registered callback is a no-op. -/
def addListener (s : VTState) (l : Listener) : VTState :=
  if l ∈ s.changeListeners then s
  else { s with changeListeners := s.changeListeners ++ [l] }

def removeListener (s : VTState) (l : Listener) : VTState :=
  { s with changeListeners := s.changeListeners.filter (fun x => x ≠ l) }

/-- write from the source: snapshot the rendered text, process every
character, snapshot again; on a difference bump the frame counter, set the
unread flag and notify the listeners with a fresh ChangeData. -/
def write (s : VTState) (data : List Char) : VTState :=
  let screenBefore := renderScreen s
  let s1 := processChars s data
  let screenAfter := renderScreen s1
  if screenAfter ≠ screenBefore then
    let s2 := { s1 with frameCounter := s1.frameCounter + 1,
                        hasChangedSinceLastCheck := true }
    let cd : ChangeData :=
      ⟨s2.frameCounter, screenBefore, screenAfter, s2.cursor, data⟩
    { s2 with firedEvents := s2.firedEvents ++ [cd],
              deliveryLog := s2.deliveryLog ++ notifyLoop s2.changeListeners cd }
  else s1

/- Resize. -/

def resize (s : VTState) (newCols newRows : Nat) : VTState :=
  let old := s.buffer
  let nb : Buffer := (List.range newRows).map (fun y =>
    (List.range newCols).map (fun x =>
      if y < min s.rows newRows ∧ x < min s.cols newCols then
        (old.getD y []).getD x (blankCell s.currentAttr)
      else blankCell s.currentAttr))
  { s with cols := newCols, rows := newRows, buffer := nb,
           cursor := ⟨min s.cursor.x ((newCols : Int) - 1),
                      min s.cursor.y ((newRows : Int) - 1)⟩,
           scrollRegion := ⟨s.scrollRegion.top,
                            min s.scrollRegion.bottom ((newRows : Int) - 1)⟩ }

/- Construction and whole-system runs. -/

def initState (cols rows : Nat) : VTState :=
  { cols := cols, rows := rows,
    buffer := createEmptyBuffer cols rows defaultAttr,
    cursor := ⟨0, 0⟩, savedCursor := ⟨0, 0⟩, cursorVisible := true,
    scrollRegion := ⟨0, (rows : Int) - 1⟩,
    altScreenBuffer := none, isAltScreen := false,
    currentAttr := defaultAttr,
    parseState := ⟨PMode.normal, [], "", ""⟩,
    frameCounter := 0, hasChangedSinceLastCheck := false,
    changeListeners := [], firedEvents := [], deliveryLog := [] }

/-- The public operations that can reach a terminal instance. -/
inductive TOp where
  | wr (data : List Char)
  | rs (newCols newRows : Nat)
deriving DecidableEq

def applyOp (s : VTState) : TOp → VTState
  | TOp.wr d => write s d
  | TOp.rs c r => resize s c r

def runOps (s : VTState) (ops : List TOp) : VTState := ops.foldl applyOp s

/-- States reachable through the public interface. -/
inductive Reachable : VTState → Prop
  | init (cols rows : Nat) : Reachable (initState cols rows)
  | wr {s : VTState} (data : List Char) : Reachable s → Reachable (write s data)
  | rs {s : VTState} (c r : Nat) : Reachable s → Reachable (resize s c r)
  | rst {s : VTState} : Reachable s → Reachable (reset s)
  | sub {s : VTState} (l : Listener) : Reachable s → Reachable (addListener s l)
  | unsub {s : VTState} (l : Listener) : Reachable s → Reachable (removeListener s l)

/- Observation projections and safety predicates used by the theorems. -/

/-- The fields character processing never touches: frame counter, event
ghost fields, listener set, unread flag, and the dimensions. -/
def frameView (s : VTState) :
    Nat × List ChangeData × List (Nat × ChangeData) × List Listener × Bool × Nat × Nat :=
  (s.frameCounter, s.firedEvents, s.deliveryLog, s.changeListeners,
   s.hasChangedSinceLastCheck, s.cols, s.rows)

/-- The alternate-screen bookkeeping fields. -/
def altView (s : VTState) : Bool × Option SavedScreen :=
  (s.isAltScreen, s.altScreenBuffer)

/-- The ChangeData constructed by a write call that detects a change. -/
def writeChangeData (s : VTState) (data : List Char) : ChangeData :=
  ⟨s.frameCounter + 1, renderScreen s, renderScreen (processChars s data),
   (processChars s data).cursor, data⟩

/-- In the CSI state, a character that is neither a digit, nor a parameter
separator, nor an intermediate, nor the DEC question mark is the final
character of the sequence. -/
def csiFinal (c : Char) : Bool :=
  !(isDigitCode c.toNat) && !(c == ';') && !(isIntermediateCode c.toNat) && !(c == '?')

/-- A character step that neither resets the terminal (ESC c) nor leaves
the alternate screen (CSI ? 1049 l). -/
def stepSafeAlt (s : VTState) (c : Char) : Bool :=
  match s.parseState.state with
  | PMode.escape => decide (¬(c = 'c'))
  | PMode.csi =>
      decide (¬(csiFinal c = true ∧ c = 'l' ∧ s.parseState.intermediate = "?" ∧
        (1049 : Int) ∈ flushParams s.parseState))
  | _ => true

/-- A character step that does not set a scroll region whose 1-indexed top
argument exceeds the row count (setScrollRegion clamps the top bound only
from below). -/
def stepSafeRegion (s : VTState) (c : Char) : Bool :=
  match s.parseState.state with
  | PMode.csi =>
      decide (¬(csiFinal c = true ∧ c = 'r' ∧
        (s.rows : Int) < getP (flushParams s.parseState) 0 1))
  | _ => true

def safeRun (p : VTState → Char → Bool) : VTState → List Char → Bool
  | _, [] => true
  | s, c :: cs => p s c && safeRun p (processChar s c) cs

def writeAll (s : VTState) (datas : List (List Char)) : VTState :=
  datas.foldl write s

def safeWrites (p : VTState → Char → Bool) : VTState → List (List Char) → Bool
  | _, [] => true
  | s, d :: ds => safeRun p s d && safeWrites p (write s d) ds

/-- Cursor bounds of the claimed invariant, with the one correction the
code forces: x may reach cols (the deferred-wrap position). -/
def posInv (cols rows : Nat) (p : Pos) : Bool :=
  decide (0 ≤ p.x) && decide (p.x ≤ (cols : Int)) &&
  decide (0 ≤ p.y) && decide (p.y < (rows : Int))

def altPosInv (cols rows : Nat) : Option SavedScreen → Bool
  | none => true
  | some b => posInv cols rows b.cursor

/-- The cursor-bounds invariant: live cursor, saved cursor and the cursor
stored in the alternate-screen snapshot are in bounds, the scroll-region
top is nonnegative, the dimensions are positive, and all parsed parameters
are nonnegative. -/
def inv3 (s : VTState) : Bool :=
  posInv s.cols s.rows s.cursor && posInv s.cols s.rows s.savedCursor &&
  altPosInv s.cols s.rows s.altScreenBuffer &&
  decide (0 ≤ s.scrollRegion.top) &&
  decide (1 ≤ s.cols) && decide (1 ≤ s.rows) &&
  s.parseState.params.all (fun p => decide (0 ≤ p))

/-- Printing a run of characters cell by cell into the buffer, used to
describe the effect of printing printable characters. -/
def bufFill (a : Attr) : Buffer → Int → Int → List Char → Buffer
  | b, _, _, [] => b
  | b, y, x, c :: cs => bufFill a (setCell b y x ⟨c, a⟩) y (x + 1) cs

/-- The same run restricted to a single row. -/
def rowFill (a : Attr) : List Cell → Nat → List Char → List Cell
  | row, _, [] => row
  | row, x, c :: cs => rowFill a (rowSet row x ⟨c, a⟩) (x + 1) cs

/-- Propositional form of the cursor bounds (x may equal cols: the
deferred-wrap position). -/
def PosOk (cols rows : Nat) (p : Pos) : Prop :=
  0 ≤ p.x ∧ p.x ≤ (cols : Int) ∧ 0 ≤ p.y ∧ p.y < (rows : Int)

/-- Propositional form of the invariant inv3. -/
def InvP (s : VTState) : Prop :=
  PosOk s.cols s.rows s.cursor ∧ PosOk s.cols s.rows s.savedCursor ∧
  (∀ b, s.altScreenBuffer = some b → PosOk s.cols s.rows b.cursor) ∧
  0 ≤ s.scrollRegion.top ∧ 1 ≤ s.cols ∧ 1 ≤ s.rows ∧
  (∀ p ∈ s.parseState.params, (0 : Int) ≤ p)

end VT

/-! ## Frame-field preservation

Processing characters (the parser and all screen operations) never touches
the frame counter, the event ghost fields, the listener set, the unread
flag, or the dimensions; only the write wrapper and resize do. -/

namespace VT

theorem fv_lineFeed (s : VTState) : frameView (lineFeed s) = frameView s := by
  unfold lineFeed scrollUpN
  dsimp only
  split <;> rfl

theorem fv_printChar (s : VTState) (c : Char) :
    frameView (printChar s c) = frameView s := by
  unfold printChar
  dsimp only
  split
  · exact fv_lineFeed _
  · rfl

theorem fv_nextLine (s : VTState) : frameView (nextLine s) = frameView s := by
  unfold nextLine carriageReturn
  exact fv_lineFeed _

theorem fv_eraseInLine (s : VTState) (m : Int) :
    frameView (eraseInLine s m) = frameView s := by
  unfold eraseInLine
  dsimp only
  repeat' split
  all_goals rfl

theorem fv_eraseInDisplay (s : VTState) (m : Int) :
    frameView (eraseInDisplay s m) = frameView s := by
  unfold eraseInDisplay clearScreen
  dsimp only
  repeat' split
  all_goals first | rfl | exact fv_eraseInLine _ _ | exact fv_eraseInLine _ 1

theorem fv_enableAltScreen (s : VTState) :
    frameView (enableAltScreen s) = frameView s := by
  unfold enableAltScreen clearScreen
  split <;> rfl

theorem fv_disableAltScreen (s : VTState) :
    frameView (disableAltScreen s) = frameView s := by
  unfold disableAltScreen
  split
  · split <;> rfl
  · rfl

theorem fv_setModeStep (inter : String) (s : VTState) (p : Int) :
    frameView (setModeStep inter s p) = frameView s := by
  unfold setModeStep
  repeat' split
  · rfl
  · exact fv_enableAltScreen _
  · rfl
  · rfl

theorem fv_resetModeStep (inter : String) (s : VTState) (p : Int) :
    frameView (resetModeStep inter s p) = frameView s := by
  unfold resetModeStep
  repeat' split
  · rfl
  · exact fv_disableAltScreen _
  · rfl
  · rfl

theorem fv_foldl {f : VTState → Int → VTState}
    (hf : ∀ t p, frameView (f t p) = frameView t) :
    ∀ (ps : List Int) (s : VTState), frameView (ps.foldl f s) = frameView s := by
  intro ps
  induction ps with
  | nil => intro s; rfl
  | cons p rest ih => intro s; rw [List.foldl_cons, ih, hf]

theorem fv_handleCSISequence (s : VTState) (c : Char) (ps : List Int) (inter : String) :
    frameView (handleCSISequence s c ps inter) = frameView s := by
  unfold handleCSISequence
  by_cases h1 : c = 'A'
  · rw [if_pos h1]; rfl
  rw [if_neg h1]
  by_cases h2 : c = 'B'
  · rw [if_pos h2]; rfl
  rw [if_neg h2]
  by_cases h3 : c = 'C'
  · rw [if_pos h3]; rfl
  rw [if_neg h3]
  by_cases h4 : c = 'D'
  · rw [if_pos h4]; rfl
  rw [if_neg h4]
  by_cases h5 : c = 'H' ∨ c = 'f'
  · rw [if_pos h5]; rfl
  rw [if_neg h5]
  by_cases h6 : c = 'J'
  · rw [if_pos h6]; exact fv_eraseInDisplay _ _
  rw [if_neg h6]
  by_cases h7 : c = 'K'
  · rw [if_pos h7]; exact fv_eraseInLine _ _
  rw [if_neg h7]
  by_cases h8 : c = 'L'
  · rw [if_pos h8]; rfl
  rw [if_neg h8]
  by_cases h9 : c = 'M'
  · rw [if_pos h9]; rfl
  rw [if_neg h9]
  by_cases h10 : c = 'P'
  · rw [if_pos h10]; rfl
  rw [if_neg h10]
  by_cases h11 : c = 'S'
  · rw [if_pos h11]; rfl
  rw [if_neg h11]
  by_cases h12 : c = 'T'
  · rw [if_pos h12]; rfl
  rw [if_neg h12]
  by_cases h13 : c = 'd'
  · rw [if_pos h13]; rfl
  rw [if_neg h13]
  by_cases h14 : c = 'G'
  · rw [if_pos h14]; rfl
  rw [if_neg h14]
  by_cases h15 : c = 'r'
  · rw [if_pos h15]; rfl
  rw [if_neg h15]
  by_cases h16 : c = 'm'
  · rw [if_pos h16]; rfl
  rw [if_neg h16]
  by_cases h17 : c = 'h'
  · rw [if_pos h17]; exact fv_foldl (fv_setModeStep inter) ps s
  rw [if_neg h17]
  by_cases h18 : c = 'l'
  · rw [if_pos h18]; exact fv_foldl (fv_resetModeStep inter) ps s
  rw [if_neg h18]
  by_cases h19 : c = 's'
  · rw [if_pos h19]; rfl
  rw [if_neg h19]
  by_cases h20 : c = 'u'
  · rw [if_pos h20]; rfl
  rw [if_neg h20]

theorem fv_reverseIndex (s : VTState) :
    frameView (reverseIndex s) = frameView s := by
  unfold reverseIndex scrollDownN
  split <;> rfl

theorem fv_handleNormalChar (s : VTState) (c : Char) :
    frameView (handleNormalChar s c) = frameView s := by
  unfold handleNormalChar
  dsimp only
  repeat' split
  all_goals first | rfl | exact fv_lineFeed _ | exact fv_printChar _ _

theorem fv_handleEscapeChar (s : VTState) (c : Char) :
    frameView (handleEscapeChar s c) = frameView s := by
  unfold handleEscapeChar index
  repeat' split
  all_goals
    first
      | rfl
      | exact fv_lineFeed _
      | exact fv_nextLine _
      | exact fv_reverseIndex _

theorem fv_handleCSIChar (s : VTState) (c : Char) :
    frameView (handleCSIChar s c) = frameView s := by
  unfold handleCSIChar
  dsimp only
  repeat' split
  all_goals first | rfl | exact fv_handleCSISequence _ _ _ _

theorem fv_handleOSCChar (s : VTState) (c : Char) :
    frameView (handleOSCChar s c) = frameView s := by
  unfold handleOSCChar
  split <;> rfl

theorem fv_processChar (s : VTState) (c : Char) :
    frameView (processChar s c) = frameView s := by
  unfold processChar
  cases s.parseState.state <;> dsimp only
  · exact fv_handleNormalChar s c
  · exact fv_handleEscapeChar s c
  · exact fv_handleCSIChar s c
  · exact fv_handleOSCChar s c

theorem fv_processChars (s : VTState) (data : List Char) :
    frameView (processChars s data) = frameView s := by
  induction data generalizing s with
  | nil => rfl
  | cons c rest ih =>
    unfold processChars at ih ⊢
    rw [List.foldl_cons, ih, fv_processChar]

end VT

/-! ## Change events: notification order, exception isolation, frame counter -/

namespace VT

theorem processChars_frame (s : VTState) (data : List Char) :
    (processChars s data).frameCounter = s.frameCounter ∧
    (processChars s data).firedEvents = s.firedEvents ∧
    (processChars s data).deliveryLog = s.deliveryLog ∧
    (processChars s data).changeListeners = s.changeListeners := by
  have h := fv_processChars s data
  simp only [frameView, Prod.mk.injEq] at h
  exact ⟨h.1, h.2.1, h.2.2.1, h.2.2.2.1⟩

theorem notifyLoop_eq_map (ls : List Listener) (cd : ChangeData) :
    notifyLoop ls cd = ls.map (fun l => (l.id, cd)) := by
  induction ls with
  | nil => rfl
  | cons l rest ih =>
    unfold notifyLoop invokeListener
    cases hl : l.throws <;> simp only [hl, Bool.false_eq_true, if_true, if_false, ih,
      List.map_cons]

/-- C6: when a change event fires, every registered listener is invoked
synchronously in registration order — the delivery trace of
notifyChangeListeners is exactly the listener list in order, one invocation
each — and this holds regardless of which listeners throw: the try/catch
discards a listener error and continues with the next listener, and since
notifyLoop is a total function no listener exception propagates out of
write. The second conjunct makes the isolation explicit: a throwing
listener in the middle of the registry still yields deliveries to every
listener registered after it. -/
theorem claim6_listener_order_isolation :
    (∀ (ls : List Listener) (cd : ChangeData),
      notifyLoop ls cd = ls.map (fun l => (l.id, cd))) ∧
    (∀ (ls1 ls2 : List Listener) (l : Listener) (cd : ChangeData),
      l.throws = true →
      notifyLoop (ls1 ++ l :: ls2) cd =
        ls1.map (fun x => (x.id, cd)) ++ (l.id, cd) :: ls2.map (fun x => (x.id, cd))) := by
  refine ⟨notifyLoop_eq_map, ?_⟩
  intro ls1 ls2 l cd _hl
  rw [notifyLoop_eq_map]
  simp

/-- C6 witness: a two-listener registry where the first listener throws
still delivers to the second listener, in order. -/
theorem claim6_witness :
    notifyLoop [⟨1, true⟩, ⟨2, false⟩] ⟨1, "a", "b", ⟨0, 0⟩, []⟩ =
      [(1, ⟨1, "a", "b", ⟨0, 0⟩, []⟩), (2, ⟨1, "a", "b", ⟨0, 0⟩, []⟩)] := by
  have h := claim6_listener_order_isolation.2 [] [⟨2, false⟩] ⟨1, true⟩
    ⟨1, "a", "b", ⟨0, 0⟩, []⟩ rfl
  simpa using h

end VT

namespace VT

theorem write_of_no_change (s : VTState) (data : List Char)
    (h : renderScreen (processChars s data) = renderScreen s) :
    write s data = processChars s data := by
  unfold write
  dsimp only
  rw [if_neg (fun hne => hne h)]

theorem write_of_change (s : VTState) (data : List Char)
    (h : renderScreen (processChars s data) ≠ renderScreen s) :
    write s data =
      { processChars s data with
        frameCounter := (processChars s data).frameCounter + 1,
        hasChangedSinceLastCheck := true,
        firedEvents := (processChars s data).firedEvents ++
          [⟨(processChars s data).frameCounter + 1, renderScreen s,
            renderScreen (processChars s data), (processChars s data).cursor, data⟩],
        deliveryLog := (processChars s data).deliveryLog ++
          notifyLoop (processChars s data).changeListeners
            ⟨(processChars s data).frameCounter + 1, renderScreen s,
             renderScreen (processChars s data), (processChars s data).cursor, data⟩ } := by
  unfold write
  dsimp only
  rw [if_pos h]

/-- C1: per write call, the frame counter advances by one exactly when the
rendered text after processing the chunk differs from the text before;
exactly one change event is recorded in that case (none otherwise), and
that one event is delivered exactly once to each registered listener in
registration order; and along every run of the public interface the frame
counter equals the cumulative number of fired change events. -/
theorem claim1_frame_iff_text_change :
    (∀ (s : VTState) (data : List Char),
      ((write s data).frameCounter =
        if renderScreen (processChars s data) = renderScreen s
        then s.frameCounter else s.frameCounter + 1) ∧
      ((write s data).firedEvents =
        if renderScreen (processChars s data) = renderScreen s
        then s.firedEvents else s.firedEvents ++ [writeChangeData s data]) ∧
      ((write s data).deliveryLog =
        if renderScreen (processChars s data) = renderScreen s
        then s.deliveryLog
        else s.deliveryLog ++
          s.changeListeners.map (fun l => (l.id, writeChangeData s data)))) ∧
    (∀ s : VTState, Reachable s → s.frameCounter = s.firedEvents.length) := by
  have hmain : ∀ (s : VTState) (data : List Char),
      ((write s data).frameCounter =
        if renderScreen (processChars s data) = renderScreen s
        then s.frameCounter else s.frameCounter + 1) ∧
      ((write s data).firedEvents =
        if renderScreen (processChars s data) = renderScreen s
        then s.firedEvents else s.firedEvents ++ [writeChangeData s data]) ∧
      ((write s data).deliveryLog =
        if renderScreen (processChars s data) = renderScreen s
        then s.deliveryLog
        else s.deliveryLog ++
          s.changeListeners.map (fun l => (l.id, writeChangeData s data))) := by
    intro s data
    obtain ⟨hfc, hfe, hdl, hcl⟩ := processChars_frame s data
    by_cases h : renderScreen (processChars s data) = renderScreen s
    · rw [write_of_no_change s data h]
      simp only [if_pos h, hfc, hfe, hdl, and_self, and_true]
    · rw [write_of_change s data h]
      simp only [if_neg h]
      refine ⟨?_, ?_, ?_⟩
      · show (processChars s data).frameCounter + 1 = s.frameCounter + 1
        rw [hfc]
      · show (processChars s data).firedEvents ++ _ = s.firedEvents ++ [writeChangeData s data]
        rw [hfe, hfc, writeChangeData]
      · show (processChars s data).deliveryLog ++ _ =
          s.deliveryLog ++ s.changeListeners.map (fun l => (l.id, writeChangeData s data))
        rw [hdl, hcl, notifyLoop_eq_map, hfc, writeChangeData]
  refine ⟨hmain, ?_⟩
  intro s hs
  induction hs with
  | init cols rows => rfl
  | wr data _ ih =>
    rename_i t _
    obtain ⟨h1, h2, _⟩ := hmain t data
    by_cases h : renderScreen (processChars t data) = renderScreen t
    · rw [h1, h2, if_pos h, if_pos h, ih]
    · rw [h1, h2, if_neg h, if_neg h, List.length_append, ih, List.length_singleton]
  | rs c r _ ih => exact ih
  | rst _ ih => exact ih
  | sub l _ ih =>
    rename_i t _
    unfold addListener
    split
    · exact ih
    · exact ih
  | unsub l _ ih => exact ih

/-- C1 witness: a concrete run discharging the Reachable hypothesis of the
second conjunct: after writing a character to a fresh 2 by 2 terminal the
frame counter equals the number of fired events. -/
theorem claim1_witness :
    (write (initState 2 2) ['A']).frameCounter =
      (write (initState 2 2) ['A']).firedEvents.length :=
  claim1_frame_iff_text_change.2 (write (initState 2 2) ['A'])
    (Reachable.wr ['A'] (Reachable.init 2 2))

end VT

/-! ## reset, setScrollRegion, and concrete counterexamples -/

namespace VT

theorem map_rowString_createEmptyBuffer (cols rows : Nat) (a : Attr) :
    (createEmptyBuffer cols rows a).map rowString =
      List.replicate rows (String.mk (List.replicate cols ' ')) := by
  simp [createEmptyBuffer, blankRow, blankCell, rowString, List.map_replicate]

/-- C10: reset reinitializes the buffer (to a blank grid, rendered
identically to a fresh terminal of the same dimensions), the cursor, the
saved cursor, the scroll region, the current attributes, the cursor
visibility and the alternate-screen state, while leaving the frame counter,
the registered listeners, the unread-change flag, the pending parse state
and the event history unchanged; and the ESC c path applies exactly reset
followed by returning the parse state to normal. -/
theorem claim10_reset_effects :
    (∀ s : VTState,
      (reset s).frameCounter = s.frameCounter ∧
      (reset s).changeListeners = s.changeListeners ∧
      (reset s).hasChangedSinceLastCheck = s.hasChangedSinceLastCheck ∧
      (reset s).parseState = s.parseState ∧
      (reset s).firedEvents = s.firedEvents ∧
      (reset s).deliveryLog = s.deliveryLog ∧
      (reset s).cursor = ⟨0, 0⟩ ∧
      (reset s).savedCursor = ⟨0, 0⟩ ∧
      (reset s).scrollRegion = ⟨0, (s.rows : Int) - 1⟩ ∧
      (reset s).currentAttr = defaultAttr ∧
      (reset s).cursorVisible = true ∧
      (reset s).isAltScreen = false ∧
      (reset s).altScreenBuffer = none ∧
      (reset s).buffer = createEmptyBuffer s.cols s.rows s.currentAttr ∧
      renderScreen (reset s) = renderScreen (initState s.cols s.rows)) ∧
    (∀ s : VTState, s.parseState.state = PMode.escape →
      processChar s 'c' =
        { reset s with parseState := { s.parseState with state := PMode.normal } }) := by
  constructor
  · intro s
    refine ⟨rfl, rfl, rfl, rfl, rfl, rfl, rfl, rfl, rfl, rfl, rfl, rfl, rfl, rfl, ?_⟩
    unfold renderScreen
    show String.intercalate "\n" ((createEmptyBuffer s.cols s.rows s.currentAttr).map rowString)
      = String.intercalate "\n" ((createEmptyBuffer s.cols s.rows defaultAttr).map rowString)
    rw [map_rowString_createEmptyBuffer, map_rowString_createEmptyBuffer]
  · intro s hst
    have h1 : processChar s 'c' = handleEscapeChar s 'c' := by
      unfold processChar
      rw [hst]
    rw [h1]
    unfold handleEscapeChar
    rw [if_neg (by decide), if_neg (by decide), if_neg (by decide), if_neg (by decide),
        if_neg (by decide), if_neg (by decide), if_neg (by decide), if_pos rfl]

/-- C10 witness: the ESC c conjunct applied to a state that is in escape
mode, namely a fresh terminal that has just consumed an ESC byte. -/
theorem claim10_witness :
    processChar (processChar (initState 2 2) '\x1b') 'c' =
      { reset (processChar (initState 2 2) '\x1b') with
        parseState := { (processChar (initState 2 2) '\x1b').parseState with
                        state := PMode.normal } } :=
  claim10_reset_effects.2 (processChar (initState 2 2) '\x1b') (by decide)

/-- C8 counterexample: the claim says setScrollRegion clamps both stored
bounds into the buffer row range. On a 3-row terminal,
setScrollRegion(100, 0) stores top = 99 and bottom = -1, neither of which
lies in the row range 0..2, and puts the cursor at row 99. -/
theorem claim8_counterexample :
    (setScrollRegion (initState 5 3) 100 0).scrollRegion.top = 99 ∧
    (setScrollRegion (initState 5 3) 100 0).scrollRegion.bottom = -1 ∧
    (setScrollRegion (initState 5 3) 100 0).cursor = ⟨0, 99⟩ ∧
    ¬((setScrollRegion (initState 5 3) 100 0).scrollRegion.top < 3 ∧
      0 ≤ (setScrollRegion (initState 5 3) 100 0).scrollRegion.bottom) := by
  decide

/-- C8 amended: setScrollRegion(top, bottom) stores
max(0, top-1) as the top bound (clamped from below only: a top argument
larger than rows+1 stays above the row range) and
min(rows-1, bottom-1) as the bottom bound (clamped from above only), and
sets the cursor to column 0 of the stored top row; the stored bounds are
inside the row range whenever the arguments are, namely 1 ≤ top ≤ rows and
1 ≤ bottom. -/
theorem claim8_setScrollRegion_clamping (s : VTState) (top bottom : Int) :
    (setScrollRegion s top bottom).scrollRegion.top = max 0 (top - 1) ∧
    (setScrollRegion s top bottom).scrollRegion.bottom =
      min ((s.rows : Int) - 1) (bottom - 1) ∧
    (setScrollRegion s top bottom).cursor =
      ⟨0, (setScrollRegion s top bottom).scrollRegion.top⟩ ∧
    0 ≤ (setScrollRegion s top bottom).scrollRegion.top ∧
    (setScrollRegion s top bottom).scrollRegion.bottom ≤ (s.rows : Int) - 1 ∧
    (top ≤ (s.rows : Int) →
      (setScrollRegion s top bottom).scrollRegion.top ≤ (s.rows : Int) - 1 ∨ s.rows = 0) ∧
    (1 ≤ bottom → 1 ≤ s.rows →
      0 ≤ (setScrollRegion s top bottom).scrollRegion.bottom) := by
  refine ⟨rfl, rfl, rfl, le_max_left 0 _, min_le_left _ _, ?_, ?_⟩
  · intro htop
    rcases Nat.eq_zero_or_pos s.rows with h0 | hpos
    · exact Or.inr h0
    · left
      show max 0 (top - 1) ≤ (s.rows : Int) - 1
      omega
  · intro hb hr
    show 0 ≤ min ((s.rows : Int) - 1) (bottom - 1)
    omega

/-- C8 amended witness: concrete instance with in-range arguments on a
3-row terminal. -/
theorem claim8_witness :
    (setScrollRegion (initState 5 3) 2 3).scrollRegion.top = max 0 (2 - 1) ∧
    ((setScrollRegion (initState 5 3) 2 3).scrollRegion.top ≤
        ((initState 5 3).rows : Int) - 1 ∨ (initState 5 3).rows = 0) := by
  have h := claim8_setScrollRegion_clamping (initState 5 3) 2 3
  exact ⟨h.1, h.2.2.2.2.2.1 (by decide)⟩

end VT

namespace VT

/-- C3 counterexample: the claimed invariant 0 ≤ x < cols fails after a
write. Writing five printable characters to a fresh 5 by 3 terminal leaves
cursor.x = 5 = cols (the deferred-wrap position, asserted by the project
test suite, which expects cursor (5,1) after writing HelloWorld). -/
theorem claim3_counterexample :
    (write (initState 5 3) ("AAAAA").toList).cursor.x = 5 ∧
    ¬((write (initState 5 3) ("AAAAA").toList).cursor.x <
        ((write (initState 5 3) ("AAAAA").toList).cols : Int)) := by
  decide

/-- C4 counterexample: on a 1 by 3 terminal with scroll region rows 0..1
(set by CSI 1;2r) and screen rows A, B, C with the cursor on the last
buffer row, a line feed scrolls only the scroll region: the result is
rows B, blank, C. The claimed full-buffer scroll would instead give
rows B, C, blank, so row 1 is not C and row 2 is not blank. -/
theorem claim4_counterexample :
    rowChars (write (initState 1 3) ("\x1b[1;2rA\x1b[2;1HB\x1b[3;1HC\n").toList) 0 = ['B'] ∧
    rowChars (write (initState 1 3) ("\x1b[1;2rA\x1b[2;1HB\x1b[3;1HC\n").toList) 1 = [' '] ∧
    rowChars (write (initState 1 3) ("\x1b[1;2rA\x1b[2;1HB\x1b[3;1HC\n").toList) 2 = ['C'] ∧
    ¬(rowChars (write (initState 1 3) ("\x1b[1;2rA\x1b[2;1HB\x1b[3;1HC\n").toList) 1 = ['C'] ∧
      rowChars (write (initState 1 3) ("\x1b[1;2rA\x1b[2;1HB\x1b[3;1HC\n").toList) 2 = [' ']) := by
  decide

/-- C9 counterexample: on a 1 by 3 terminal with scroll region rows 1..2
(set by CSI 2;3r), the character A on row 1 and the cursor at row 0 —
strictly above the scroll-region top — reverseIndex (ESC M) scrolls the
region down (A moves from row 1 to row 2) and leaves the cursor in place,
whereas the claim says it should move the cursor up one row without
scrolling. -/
theorem claim9_counterexample :
    rowChars (write (initState 1 3) ("\x1b[2;3rA\x1b[1;1H\x1bM").toList) 1 = [' '] ∧
    rowChars (write (initState 1 3) ("\x1b[2;3rA\x1b[1;1H\x1bM").toList) 2 = ['A'] ∧
    (write (initState 1 3) ("\x1b[2;3rA\x1b[1;1H\x1bM").toList).cursor = ⟨0, 0⟩ ∧
    ¬(rowChars (write (initState 1 3) ("\x1b[2;3rA\x1b[1;1H\x1bM").toList) 1 = ['A']) := by
  decide

/-- C2 counterexample: from a 1 by 1 terminal showing A, enabling the
alternate screen (CSI ? 1049 h), then writing ESC c (reset) while in
alternate-screen mode, then disabling (CSI ? 1049 l), does not restore the
screen or the cursor: reset discarded the snapshot and cleared the
alternate-screen flag, so the final screen is blank and the cursor is at
the origin instead of the pre-enable A at cursor (1,0). -/
theorem claim2_counterexample :
    renderScreen (write (write (write (write (initState 1 1) ("A").toList)
        ("\x1b[?1049h").toList) ("\x1bc").toList) ("\x1b[?1049l").toList) ≠
      renderScreen (write (initState 1 1) ("A").toList) ∧
    (write (write (write (write (initState 1 1) ("A").toList)
        ("\x1b[?1049h").toList) ("\x1bc").toList) ("\x1b[?1049l").toList).cursor ≠
      (write (initState 1 1) ("A").toList).cursor := by
  decide

/-- C5, evaluation at the failing input: the JS loop of eraseInLine mode 1
runs for x from 0 up to and including cursor.x; with the cursor parked at
the deferred-wrap position cursor.x = cols after the row was filled, the
final assignment buffer[y][cols] grows the row by one cell. Writing
AB then CSI 1 K on a 2 by 2 terminal leaves row 0 with three cells, so
getScreenText has a first line of three characters on a 2-column terminal,
violating the rows-by-cols shape the specification and the project
documentation promise. -/
theorem claim5_shape_violation :
    (rowChars (write (initState 2 2) ("AB\x1b[1K").toList) 0).length = 3 ∧
    (write (initState 2 2) ("AB\x1b[1K").toList).cols = 2 ∧
    (write (initState 2 2) ("AB\x1b[1K").toList).rows = 2 ∧
    renderScreen (write (initState 2 2) ("AB\x1b[1K").toList) = "   \n  " := by
  decide

end VT

/-! ## Alternate-screen snapshot preservation (C2) -/

namespace VT

theorem av_lineFeed (s : VTState) : altView (lineFeed s) = altView s := by
  unfold lineFeed scrollUpN
  dsimp only
  split <;> rfl

theorem av_printChar (s : VTState) (c : Char) :
    altView (printChar s c) = altView s := by
  unfold printChar
  dsimp only
  split
  · exact av_lineFeed _
  · rfl

theorem av_nextLine (s : VTState) : altView (nextLine s) = altView s := by
  unfold nextLine carriageReturn
  exact av_lineFeed _

theorem av_reverseIndex (s : VTState) :
    altView (reverseIndex s) = altView s := by
  unfold reverseIndex scrollDownN
  split <;> rfl

theorem av_eraseInLine (s : VTState) (m : Int) :
    altView (eraseInLine s m) = altView s := by
  unfold eraseInLine
  dsimp only
  repeat' split
  all_goals rfl

theorem av_eraseInDisplay (s : VTState) (m : Int) :
    altView (eraseInDisplay s m) = altView s := by
  unfold eraseInDisplay clearScreen
  dsimp only
  repeat' split
  all_goals first | rfl | exact av_eraseInLine _ _ | exact av_eraseInLine _ 1

theorem enableAltScreen_of_alt (s : VTState) (h : s.isAltScreen = true) :
    enableAltScreen s = s := by
  unfold enableAltScreen
  rw [if_pos h]

theorem av_setModeStep (inter : String) (s : VTState) (p : Int)
    (h : s.isAltScreen = true) :
    altView (setModeStep inter s p) = altView s := by
  unfold setModeStep
  repeat' split
  · rfl
  · rw [enableAltScreen_of_alt s h]
  · rfl
  · rfl

theorem av_setMode (inter : String) (ps : List Int) (s : VTState)
    (h : s.isAltScreen = true) :
    altView (setMode s ps inter) = altView s := by
  unfold setMode
  induction ps generalizing s with
  | nil => rfl
  | cons p rest ih =>
    rw [List.foldl_cons]
    have hstep := av_setModeStep inter s p h
    have halt2 : (setModeStep inter s p).isAltScreen = true := by
      have h1 : (setModeStep inter s p).isAltScreen = s.isAltScreen :=
        congrArg (fun v => v.1) hstep
      rw [h1, h]
    rw [ih (setModeStep inter s p) halt2, hstep]

theorem av_resetModeStep (inter : String) (s : VTState) (p : Int)
    (h : inter ≠ "?" ∨ p ≠ 1049) :
    altView (resetModeStep inter s p) = altView s := by
  unfold resetModeStep
  by_cases hq : inter = "?"
  · rw [if_pos hq]
    have hp : p ≠ 1049 := h.resolve_left (fun hn => hn hq)
    by_cases h25 : p = 25
    · rw [if_pos h25]; rfl
    · rw [if_neg h25, if_neg hp]
  · rw [if_neg hq]

theorem av_resetMode (inter : String) (ps : List Int) (s : VTState)
    (h : inter ≠ "?" ∨ ¬((1049 : Int) ∈ ps)) :
    altView (resetMode s ps inter) = altView s := by
  unfold resetMode
  induction ps generalizing s with
  | nil => rfl
  | cons p rest ih =>
    rw [List.foldl_cons]
    have hp : inter ≠ "?" ∨ p ≠ 1049 := by
      rcases h with h | h
      · exact Or.inl h
      · exact Or.inr (fun he => h (he ▸ List.mem_cons_self p rest))
    have hrest : inter ≠ "?" ∨ ¬((1049 : Int) ∈ rest) := by
      rcases h with h | h
      · exact Or.inl h
      · exact Or.inr (fun hm => h (List.mem_cons_of_mem p hm))
    rw [ih (resetModeStep inter s p) hrest, av_resetModeStep inter s p hp]

theorem av_handleCSISequence (s : VTState) (c : Char) (ps : List Int) (inter : String)
    (halt : s.isAltScreen = true)
    (hsafe : ¬(c = 'l' ∧ inter = "?" ∧ (1049 : Int) ∈ ps)) :
    altView (handleCSISequence s c ps inter) = altView s := by
  unfold handleCSISequence
  by_cases h1 : c = 'A'
  · rw [if_pos h1]; rfl
  rw [if_neg h1]
  by_cases h2 : c = 'B'
  · rw [if_pos h2]; rfl
  rw [if_neg h2]
  by_cases h3 : c = 'C'
  · rw [if_pos h3]; rfl
  rw [if_neg h3]
  by_cases h4 : c = 'D'
  · rw [if_pos h4]; rfl
  rw [if_neg h4]
  by_cases h5 : c = 'H' ∨ c = 'f'
  · rw [if_pos h5]; rfl
  rw [if_neg h5]
  by_cases h6 : c = 'J'
  · rw [if_pos h6]; exact av_eraseInDisplay _ _
  rw [if_neg h6]
  by_cases h7 : c = 'K'
  · rw [if_pos h7]; exact av_eraseInLine _ _
  rw [if_neg h7]
  by_cases h8 : c = 'L'
  · rw [if_pos h8]; rfl
  rw [if_neg h8]
  by_cases h9 : c = 'M'
  · rw [if_pos h9]; rfl
  rw [if_neg h9]
  by_cases h10 : c = 'P'
  · rw [if_pos h10]; rfl
  rw [if_neg h10]
  by_cases h11 : c = 'S'
  · rw [if_pos h11]; rfl
  rw [if_neg h11]
  by_cases h12 : c = 'T'
  · rw [if_pos h12]; rfl
  rw [if_neg h12]
  by_cases h13 : c = 'd'
  · rw [if_pos h13]; rfl
  rw [if_neg h13]
  by_cases h14 : c = 'G'
  · rw [if_pos h14]; rfl
  rw [if_neg h14]
  by_cases h15 : c = 'r'
  · rw [if_pos h15]; rfl
  rw [if_neg h15]
  by_cases h16 : c = 'm'
  · rw [if_pos h16]; rfl
  rw [if_neg h16]
  by_cases h17 : c = 'h'
  · rw [if_pos h17]; exact av_setMode inter ps s halt
  rw [if_neg h17]
  by_cases h18 : c = 'l'
  · rw [if_pos h18]
    refine av_resetMode inter ps s ?_
    by_cases hq : inter = "?"
    · refine Or.inr (fun hm => hsafe ⟨h18, hq, hm⟩)
    · exact Or.inl hq
  rw [if_neg h18]
  by_cases h19 : c = 's'
  · rw [if_pos h19]; rfl
  rw [if_neg h19]
  by_cases h20 : c = 'u'
  · rw [if_pos h20]; rfl
  rw [if_neg h20]

end VT

namespace VT

theorem av_processChar (s : VTState) (c : Char)
    (halt : s.isAltScreen = true) (hsafe : stepSafeAlt s c = true) :
    altView (processChar s c) = altView s := by
  unfold processChar
  cases hst : s.parseState.state <;> dsimp only
  case normal =>
    unfold handleNormalChar
    dsimp only
    repeat' split
    all_goals first | rfl | exact av_lineFeed _ | exact av_printChar _ _
  case escape =>
    have hc : ¬(c = 'c') := by
      simp only [stepSafeAlt, hst, decide_eq_true_eq] at hsafe
      exact hsafe
    unfold handleEscapeChar
    by_cases e1 : c = '['
    · rw [if_pos e1]; rfl
    rw [if_neg e1]
    by_cases e2 : c = ']'
    · rw [if_pos e2]; rfl
    rw [if_neg e2]
    by_cases e3 : c = 'D'
    · rw [if_pos e3]; exact av_lineFeed s
    rw [if_neg e3]
    by_cases e4 : c = 'M'
    · rw [if_pos e4]; exact av_reverseIndex s
    rw [if_neg e4]
    by_cases e5 : c = 'E'
    · rw [if_pos e5]; exact av_nextLine s
    rw [if_neg e5]
    by_cases e6 : c = '7'
    · rw [if_pos e6]; rfl
    rw [if_neg e6]
    by_cases e7 : c = '8'
    · rw [if_pos e7]; rfl
    rw [if_neg e7]
    rw [if_neg hc]
    rfl
  case csi =>
    unfold handleCSIChar
    dsimp only
    by_cases d1 : isDigitCode c.toNat = true
    · rw [if_pos d1]; rfl
    rw [if_neg d1]
    by_cases d2 : c = ';'
    · rw [if_pos d2]; rfl
    rw [if_neg d2]
    by_cases d3 : isIntermediateCode c.toNat = true
    · rw [if_pos d3]; rfl
    rw [if_neg d3]
    by_cases d4 : c = '?'
    · rw [if_pos d4]; rfl
    rw [if_neg d4]
    have hfin : csiFinal c = true := by
      simp only [Bool.not_eq_true] at d1 d3
      simp [csiFinal, d1, d3, d2, d4]
    refine av_handleCSISequence s c (flushParams s.parseState)
      s.parseState.intermediate halt ?_
    intro hcon
    simp only [stepSafeAlt, hst, decide_eq_true_eq] at hsafe
    exact hsafe ⟨hfin, hcon.1, hcon.2.1, hcon.2.2⟩
  case osc =>
    unfold handleOSCChar
    split <;> rfl

theorem av_processChars (s : VTState) (data : List Char)
    (halt : s.isAltScreen = true) (hsafe : safeRun stepSafeAlt s data = true) :
    altView (processChars s data) = altView s := by
  induction data generalizing s with
  | nil => rfl
  | cons c rest ih =>
    unfold safeRun at hsafe
    rw [Bool.and_eq_true] at hsafe
    have h1 := av_processChar s c halt hsafe.1
    have halt2 : (processChar s c).isAltScreen = true := by
      have := congrArg (fun v => v.1) h1
      simp only [altView] at this
      rw [this, halt]
    unfold processChars
    rw [List.foldl_cons]
    show altView (processChars (processChar s c) rest) = altView s
    rw [ih (processChar s c) halt2 hsafe.2, h1]

theorem av_write (s : VTState) (data : List Char)
    (halt : s.isAltScreen = true) (hsafe : safeRun stepSafeAlt s data = true) :
    altView (write s data) = altView s := by
  have h1 := av_processChars s data halt hsafe
  by_cases h : renderScreen (processChars s data) = renderScreen s
  · rw [write_of_no_change s data h]; exact h1
  · rw [write_of_change s data h]; exact h1

theorem av_writeAll (s : VTState) (datas : List (List Char))
    (halt : s.isAltScreen = true)
    (hsafe : safeWrites stepSafeAlt s datas = true) :
    altView (writeAll s datas) = altView s := by
  induction datas generalizing s with
  | nil => rfl
  | cons d rest ih =>
    unfold safeWrites at hsafe
    rw [Bool.and_eq_true] at hsafe
    have h1 := av_write s d halt hsafe.1
    have halt2 : (write s d).isAltScreen = true := by
      have := congrArg (fun v => v.1) h1
      simp only [altView] at this
      rw [this, halt]
    unfold writeAll
    rw [List.foldl_cons]
    show altView (writeAll (write s d) rest) = altView s
    rw [ih (write s d) halt2 hsafe.2, h1]

/-- C2 amended: starting from any state that is not already in
alternate-screen mode, enabling the alternate screen, performing any
sequence of writes none of which resets the terminal (ESC c) or exits the
alternate screen (CSI ? 1049 l), and then disabling it, restores the
rendered screen text and the cursor exactly to their pre-enable values. -/
theorem claim2_altscreen_roundtrip (s : VTState) (datas : List (List Char))
    (hnot : s.isAltScreen = false)
    (hsafe : safeWrites stepSafeAlt (enableAltScreen s) datas = true) :
    renderScreen (disableAltScreen (writeAll (enableAltScreen s) datas)) =
      renderScreen s ∧
    (disableAltScreen (writeAll (enableAltScreen s) datas)).cursor = s.cursor := by
  have henable : altView (enableAltScreen s) = (true, some ⟨s.buffer, s.cursor⟩) := by
    unfold enableAltScreen clearScreen
    rw [if_neg (by rw [hnot]; exact Bool.false_ne_true)]
    rfl
  have halt : (enableAltScreen s).isAltScreen = true :=
    congrArg (fun v => v.1) henable
  have hrun := av_writeAll (enableAltScreen s) datas halt hsafe
  have hfin : altView (writeAll (enableAltScreen s) datas) =
      (true, some ⟨s.buffer, s.cursor⟩) := hrun.trans henable
  have hAlt : (writeAll (enableAltScreen s) datas).isAltScreen = true :=
    congrArg (fun v => v.1) hfin
  have hBuf : (writeAll (enableAltScreen s) datas).altScreenBuffer =
      some ⟨s.buffer, s.cursor⟩ :=
    congrArg (fun v => v.2) hfin
  have hdis : disableAltScreen (writeAll (enableAltScreen s) datas) =
      { writeAll (enableAltScreen s) datas with
        buffer := s.buffer, cursor := s.cursor,
        altScreenBuffer := none, isAltScreen := false } := by
    unfold disableAltScreen
    rw [hBuf]
    dsimp only
    rw [if_pos hAlt]
  rw [hdis]
  constructor
  · unfold renderScreen
    rfl
  · rfl

/-- C2 witness: a fresh 2 by 2 terminal with an A printed, one write of B
inside the alternate screen, round-trips back to the original screen and
cursor. -/
theorem claim2_witness :
    renderScreen (disableAltScreen (writeAll
      (enableAltScreen (write (initState 2 2) ['A'])) [['B']])) =
        renderScreen (write (initState 2 2) ['A']) ∧
    (disableAltScreen (writeAll
      (enableAltScreen (write (initState 2 2) ['A'])) [['B']])).cursor =
        (write (initState 2 2) ['A']).cursor :=
  claim2_altscreen_roundtrip (write (initState 2 2) ['A']) [['B']]
    (by decide) (by decide)

end VT

/-! ## Cursor bounds invariant (C3) -/

namespace VT

theorem inv3_iff (s : VTState) : inv3 s = true ↔ InvP s := by
  unfold inv3 posInv InvP PosOk
  cases halt : s.altScreenBuffer with
  | none =>
    simp [altPosInv, List.all_eq_true, and_assoc]
  | some b =>
    simp [altPosInv, posInv, List.all_eq_true, and_assoc]

theorem lineFeed_cols (s : VTState) : (lineFeed s).cols = s.cols :=
  congrArg (fun v => v.2.2.2.2.2.1) (fv_lineFeed s)

theorem invp_lineFeed (s : VTState) (h : InvP s) :
    InvP (lineFeed s) ∧ (lineFeed s).cursor.x = 0 := by
  obtain ⟨⟨hx0, hxc, hy0, hyr⟩, hrest⟩ := h
  have hr1 : 1 ≤ (s.rows : Int) := by
    have := hrest.2.2.2.2.1
    omega
  have hc1 : 1 ≤ (s.cols : Int) := by
    have := hrest.2.2.2.1
    omega
  unfold lineFeed
  dsimp only
  split
  · exact ⟨⟨⟨le_refl 0, show (0 : Int) ≤ (s.cols : Int) by omega, hy0, hyr⟩, hrest⟩, rfl⟩
  · rename_i hlt
    have hlt2 : ¬(s.cursor.y ≥ (s.rows : Int) - 1) := hlt
    exact ⟨⟨⟨le_refl 0, show (0 : Int) ≤ (s.cols : Int) by omega,
      show (0 : Int) ≤ s.cursor.y + 1 by omega,
      show s.cursor.y + 1 < (s.rows : Int) by omega⟩, hrest⟩, rfl⟩

theorem invp_printChar (s : VTState) (c : Char) (h : InvP s) :
    InvP (printChar s c) := by
  have hc1 : 1 ≤ (s.cols : Int) := by
    have := h.2.2.2.2.1
    omega
  unfold printChar
  dsimp only
  split
  · obtain ⟨h1, hx1⟩ := invp_lineFeed { s with cursor := ⟨0, s.cursor.y⟩ }
      ⟨⟨le_refl 0, show (0 : Int) ≤ (s.cols : Int) by omega, h.1.2.2.1, h.1.2.2.2⟩, h.2⟩
    obtain ⟨⟨ha, hb, hc2, hd⟩, hrest⟩ := h1
    refine ⟨⟨?_, ?_, hc2, hd⟩, hrest⟩
    · show (0 : Int) ≤ (lineFeed { s with cursor := ⟨0, s.cursor.y⟩ }).cursor.x + 1
      omega
    · show (lineFeed { s with cursor := ⟨0, s.cursor.y⟩ }).cursor.x + 1 ≤
        ((lineFeed { s with cursor := ⟨0, s.cursor.y⟩ }).cols : Int)
      rw [hx1, lineFeed_cols]
      show (0 : Int) + 1 ≤ (s.cols : Int)
      omega
  · rename_i hlt
    have hlt2 : ¬(s.cursor.x ≥ (s.cols : Int)) := hlt
    obtain ⟨⟨hx0, hxc, hy0, hyr⟩, hrest⟩ := h
    exact ⟨⟨show (0 : Int) ≤ s.cursor.x + 1 by omega,
      show s.cursor.x + 1 ≤ (s.cols : Int) by omega, hy0, hyr⟩, hrest⟩

theorem invp_moveCursorUp (s : VTState) (n : Int) (h : InvP s) (hn : 0 ≤ n) :
    InvP (moveCursorUp s n) := by
  obtain ⟨⟨hx0, hxc, hy0, hyr⟩, hrest⟩ := h
  exact ⟨⟨hx0, hxc, show (0 : Int) ≤ max 0 (s.cursor.y - n) by omega,
    show max 0 (s.cursor.y - n) < (s.rows : Int) by omega⟩, hrest⟩

theorem invp_moveCursorDown (s : VTState) (n : Int) (h : InvP s) (hn : 0 ≤ n) :
    InvP (moveCursorDown s n) := by
  obtain ⟨⟨hx0, hxc, hy0, hyr⟩, hrest⟩ := h
  have hr1 : 1 ≤ (s.rows : Int) := by
    have := hrest.2.2.2.2.1
    omega
  exact ⟨⟨hx0, hxc, show (0 : Int) ≤ min ((s.rows : Int) - 1) (s.cursor.y + n) by omega,
    show min ((s.rows : Int) - 1) (s.cursor.y + n) < (s.rows : Int) by omega⟩, hrest⟩

theorem invp_moveCursorRight (s : VTState) (n : Int) (h : InvP s) (hn : 0 ≤ n) :
    InvP (moveCursorRight s n) := by
  obtain ⟨⟨hx0, hxc, hy0, hyr⟩, hrest⟩ := h
  have hc1 : 1 ≤ (s.cols : Int) := by
    have := hrest.2.2.2.1
    omega
  exact ⟨⟨show (0 : Int) ≤ min ((s.cols : Int) - 1) (s.cursor.x + n) by omega,
    show min ((s.cols : Int) - 1) (s.cursor.x + n) ≤ (s.cols : Int) by omega,
    hy0, hyr⟩, hrest⟩

theorem invp_moveCursorLeft (s : VTState) (n : Int) (h : InvP s) (hn : 0 ≤ n) :
    InvP (moveCursorLeft s n) := by
  obtain ⟨⟨hx0, hxc, hy0, hyr⟩, hrest⟩ := h
  exact ⟨⟨show (0 : Int) ≤ max 0 (s.cursor.x - n) by omega,
    show max 0 (s.cursor.x - n) ≤ (s.cols : Int) by omega, hy0, hyr⟩, hrest⟩

theorem invp_setCursorPosition (s : VTState) (col row : Int) (h : InvP s) :
    InvP (setCursorPosition s col row) := by
  obtain ⟨hcur, hrest⟩ := h
  have hc1 : 1 ≤ (s.cols : Int) := by
    have := hrest.2.2.2.1
    omega
  have hr1 : 1 ≤ (s.rows : Int) := by
    have := hrest.2.2.2.2.1
    omega
  exact ⟨⟨show (0 : Int) ≤ max 0 (min ((s.cols : Int) - 1) (col - 1)) by omega,
    show max 0 (min ((s.cols : Int) - 1) (col - 1)) ≤ (s.cols : Int) by omega,
    show (0 : Int) ≤ max 0 (min ((s.rows : Int) - 1) (row - 1)) by omega,
    show max 0 (min ((s.rows : Int) - 1) (row - 1)) < (s.rows : Int) by omega⟩, hrest⟩

theorem invp_tab (s : VTState) (h : InvP s) : InvP (tab s) := by
  obtain ⟨⟨hx0, hxc, hy0, hyr⟩, hrest⟩ := h
  have hc1 : 1 ≤ (s.cols : Int) := by
    have := hrest.2.2.2.1
    omega
  have h8 : 0 ≤ Int.fdiv s.cursor.x 8 := Int.fdiv_nonneg hx0 (by norm_num)
  exact ⟨⟨show (0 : Int) ≤ min (Int.fdiv s.cursor.x 8 * 8 + 8) ((s.cols : Int) - 1) by omega,
    show min (Int.fdiv s.cursor.x 8 * 8 + 8) ((s.cols : Int) - 1) ≤ (s.cols : Int) by omega,
    hy0, hyr⟩, hrest⟩

theorem invp_carriageReturn (s : VTState) (h : InvP s) : InvP (carriageReturn s) := by
  obtain ⟨⟨hx0, hxc, hy0, hyr⟩, hrest⟩ := h
  exact ⟨⟨le_refl 0, show (0 : Int) ≤ (s.cols : Int) by omega, hy0, hyr⟩, hrest⟩

theorem invp_nextLine (s : VTState) (h : InvP s) : InvP (nextLine s) :=
  (invp_lineFeed (carriageReturn s) (invp_carriageReturn s h)).1

theorem invp_reverseIndex (s : VTState) (h : InvP s) : InvP (reverseIndex s) := by
  unfold reverseIndex scrollDownN
  split
  · exact h
  · rename_i hgt
    rw [not_le] at hgt
    obtain ⟨⟨hx0, hxc, hy0, hyr⟩, hrest⟩ := h
    have htop : 0 ≤ s.scrollRegion.top := hrest.2.2.1
    exact ⟨⟨hx0, hxc, show (0 : Int) ≤ s.cursor.y - 1 by omega,
      show s.cursor.y - 1 < (s.rows : Int) by omega⟩, hrest⟩

theorem invp_saveCursor (s : VTState) (h : InvP s) : InvP (saveCursor s) :=
  ⟨h.1, h.1, h.2.2⟩

theorem invp_restoreCursor (s : VTState) (h : InvP s) : InvP (restoreCursor s) :=
  ⟨h.2.1, h.2.1, h.2.2⟩

theorem invp_clearScreen (s : VTState) (h : InvP s) : InvP (clearScreen s) := by
  obtain ⟨_, hrest⟩ := h
  have hc1 : 1 ≤ (s.cols : Int) := by
    have := hrest.2.2.2.1
    omega
  have hr1 : 1 ≤ (s.rows : Int) := by
    have := hrest.2.2.2.2.1
    omega
  exact ⟨⟨le_refl 0, show (0 : Int) ≤ (s.cols : Int) by omega, le_refl 0,
    show (0 : Int) < (s.rows : Int) by omega⟩, hrest⟩

theorem invp_eraseInLine (s : VTState) (m : Int) (h : InvP s) :
    InvP (eraseInLine s m) := by
  unfold eraseInLine
  dsimp only
  repeat' split
  all_goals exact h

theorem invp_eraseInDisplay (s : VTState) (m : Int) (h : InvP s) :
    InvP (eraseInDisplay s m) := by
  unfold eraseInDisplay
  dsimp only
  repeat' split
  · exact invp_eraseInLine s 0 h
  · exact invp_eraseInLine _ 1 h
  · exact invp_clearScreen s h
  · exact h

theorem invp_scrollUpN (s : VTState) (n : Int) (h : InvP s) : InvP (scrollUpN s n) := h

theorem invp_scrollDownN (s : VTState) (n : Int) (h : InvP s) : InvP (scrollDownN s n) := h

theorem invp_insertLines (s : VTState) (n : Int) (h : InvP s) : InvP (insertLines s n) := h

theorem invp_deleteLines (s : VTState) (n : Int) (h : InvP s) : InvP (deleteLines s n) := h

theorem invp_deleteCharacters (s : VTState) (n : Int) (h : InvP s) :
    InvP (deleteCharacters s n) := h

theorem invp_setGraphicRendition (s : VTState) (ps : List Int) (h : InvP s) :
    InvP (setGraphicRendition s ps) := h

theorem invp_setScrollRegion (s : VTState) (top bottom : Int) (h : InvP s)
    (htop : top ≤ (s.rows : Int)) : InvP (setScrollRegion s top bottom) := by
  obtain ⟨_, hrest⟩ := h
  have hc1 : 1 ≤ (s.cols : Int) := by
    have := hrest.2.2.2.1
    omega
  have hr1 : 1 ≤ (s.rows : Int) := by
    have := hrest.2.2.2.2.1
    omega
  refine ⟨⟨le_refl 0, show (0 : Int) ≤ (s.cols : Int) by omega,
    show (0 : Int) ≤ max 0 (top - 1) by omega,
    show max 0 (top - 1) < (s.rows : Int) by omega⟩, hrest.1, hrest.2.1,
    show (0 : Int) ≤ max 0 (top - 1) by omega, hrest.2.2.2⟩

theorem invp_enableAltScreen (s : VTState) (h : InvP s) : InvP (enableAltScreen s) := by
  unfold enableAltScreen
  split
  · exact h
  · refine invp_clearScreen _ ⟨h.1, h.2.1, ?_, h.2.2.2⟩
    intro b hb
    injection hb with hb
    rw [← hb]
    exact h.1

theorem invp_disableAltScreen (s : VTState) (h : InvP s) : InvP (disableAltScreen s) := by
  unfold disableAltScreen
  split
  · rename_i saved hsaved
    split
    · refine ⟨h.2.2.1 saved hsaved, h.2.1, ?_, h.2.2.2⟩
      intro b hb
      cases hb
    · exact h
  · exact h

theorem invp_setModeStep (inter : String) (s : VTState) (p : Int) (h : InvP s) :
    InvP (setModeStep inter s p) := by
  unfold setModeStep
  repeat' split
  · exact h
  · exact invp_enableAltScreen s h
  · exact h
  · exact h

theorem invp_setMode (s : VTState) (ps : List Int) (inter : String) (h : InvP s) :
    InvP (setMode s ps inter) := by
  unfold setMode
  induction ps generalizing s with
  | nil => exact h
  | cons p rest ih =>
    rw [List.foldl_cons]
    exact ih (setModeStep inter s p) (invp_setModeStep inter s p h)

theorem invp_resetModeStep (inter : String) (s : VTState) (p : Int) (h : InvP s) :
    InvP (resetModeStep inter s p) := by
  unfold resetModeStep
  repeat' split
  · exact h
  · exact invp_disableAltScreen s h
  · exact h
  · exact h

theorem invp_resetMode (s : VTState) (ps : List Int) (inter : String) (h : InvP s) :
    InvP (resetMode s ps inter) := by
  unfold resetMode
  induction ps generalizing s with
  | nil => exact h
  | cons p rest ih =>
    rw [List.foldl_cons]
    exact ih (resetModeStep inter s p) (invp_resetModeStep inter s p h)

theorem invp_reset (s : VTState) (h : InvP s) : InvP (reset s) := by
  obtain ⟨_, hrest⟩ := h
  have hc1 : 1 ≤ (s.cols : Int) := by
    have := hrest.2.2.2.1
    omega
  have hr1 : 1 ≤ (s.rows : Int) := by
    have := hrest.2.2.2.2.1
    omega
  refine ⟨⟨le_refl 0, show (0 : Int) ≤ (s.cols : Int) by omega, le_refl 0,
    show (0 : Int) < (s.rows : Int) by omega⟩,
    ⟨le_refl 0, show (0 : Int) ≤ (s.cols : Int) by omega, le_refl 0,
    show (0 : Int) < (s.rows : Int) by omega⟩, ?_, le_refl 0,
    hrest.2.2.2.1, hrest.2.2.2.2.1, hrest.2.2.2.2.2⟩
  intro b hb
  cases hb

theorem getP_nonneg (ps : List Int) (i : Nat) (d : Int)
    (hps : ∀ p ∈ ps, (0 : Int) ≤ p) (hd : 0 ≤ d) : 0 ≤ getP ps i d := by
  unfold getP
  cases hv : ps.get? i with
  | none => exact hd
  | some v =>
    have hm : v ∈ ps := List.get?_mem hv
    dsimp only
    split
    · exact hd
    · exact hps v hm

end VT

namespace VT

theorem paramVal_nonneg (str : String) : (0 : Int) ≤ paramVal str := by
  unfold paramVal
  exact Int.ofNat_nonneg _

theorem flushParams_nonneg (p : ParseState)
    (hps : ∀ q ∈ p.params, (0 : Int) ≤ q) :
    ∀ q ∈ flushParams p, (0 : Int) ≤ q := by
  intro q hq
  unfold flushParams at hq
  rcases List.mem_append.1 hq with hq | hq
  · exact hps q hq
  · split at hq
    · cases hq
    · rw [List.mem_singleton] at hq
      rw [hq]
      exact paramVal_nonneg _

theorem invp_handleCSISequence (s : VTState) (c : Char) (ps : List Int) (inter : String)
    (h : InvP s) (hps : ∀ p ∈ ps, (0 : Int) ≤ p)
    (hsafe : ¬(c = 'r' ∧ (s.rows : Int) < getP ps 0 1)) :
    InvP (handleCSISequence s c ps inter) := by
  unfold handleCSISequence
  by_cases h1 : c = 'A'
  · rw [if_pos h1]; exact invp_moveCursorUp s _ h (getP_nonneg ps 0 1 hps (by omega))
  rw [if_neg h1]
  by_cases h2 : c = 'B'
  · rw [if_pos h2]; exact invp_moveCursorDown s _ h (getP_nonneg ps 0 1 hps (by omega))
  rw [if_neg h2]
  by_cases h3 : c = 'C'
  · rw [if_pos h3]; exact invp_moveCursorRight s _ h (getP_nonneg ps 0 1 hps (by omega))
  rw [if_neg h3]
  by_cases h4 : c = 'D'
  · rw [if_pos h4]; exact invp_moveCursorLeft s _ h (getP_nonneg ps 0 1 hps (by omega))
  rw [if_neg h4]
  by_cases h5 : c = 'H' ∨ c = 'f'
  · rw [if_pos h5]; exact invp_setCursorPosition s _ _ h
  rw [if_neg h5]
  by_cases h6 : c = 'J'
  · rw [if_pos h6]; exact invp_eraseInDisplay s _ h
  rw [if_neg h6]
  by_cases h7 : c = 'K'
  · rw [if_pos h7]; exact invp_eraseInLine s _ h
  rw [if_neg h7]
  by_cases h8 : c = 'L'
  · rw [if_pos h8]; exact invp_insertLines s _ h
  rw [if_neg h8]
  by_cases h9 : c = 'M'
  · rw [if_pos h9]; exact invp_deleteLines s _ h
  rw [if_neg h9]
  by_cases h10 : c = 'P'
  · rw [if_pos h10]; exact invp_deleteCharacters s _ h
  rw [if_neg h10]
  by_cases h11 : c = 'S'
  · rw [if_pos h11]; exact invp_scrollUpN s _ h
  rw [if_neg h11]
  by_cases h12 : c = 'T'
  · rw [if_pos h12]; exact invp_scrollDownN s _ h
  rw [if_neg h12]
  by_cases h13 : c = 'd'
  · rw [if_pos h13]; exact invp_setCursorPosition s _ _ h
  rw [if_neg h13]
  by_cases h14 : c = 'G'
  · rw [if_pos h14]; exact invp_setCursorPosition s _ _ h
  rw [if_neg h14]
  by_cases h15 : c = 'r'
  · rw [if_pos h15]
    refine invp_setScrollRegion s _ _ h ?_
    by_contra hlt
    rw [not_le] at hlt
    exact hsafe ⟨h15, hlt⟩
  rw [if_neg h15]
  by_cases h16 : c = 'm'
  · rw [if_pos h16]; exact invp_setGraphicRendition s ps h
  rw [if_neg h16]
  by_cases h17 : c = 'h'
  · rw [if_pos h17]; exact invp_setMode s ps inter h
  rw [if_neg h17]
  by_cases h18 : c = 'l'
  · rw [if_pos h18]; exact invp_resetMode s ps inter h
  rw [if_neg h18]
  by_cases h19 : c = 's'
  · rw [if_pos h19]; exact invp_saveCursor s h
  rw [if_neg h19]
  by_cases h20 : c = 'u'
  · rw [if_pos h20]; exact invp_restoreCursor s h
  rw [if_neg h20]
  exact h

theorem invp_processChar (s : VTState) (c : Char) (h : InvP s)
    (hsafe : stepSafeRegion s c = true) : InvP (processChar s c) := by
  unfold processChar
  cases hst : s.parseState.state <;> dsimp only
  case normal =>
    unfold handleNormalChar
    dsimp only
    by_cases n1 : c.toNat = 27
    · rw [if_pos n1]
      refine ⟨h.1, h.2.1, h.2.2.1, h.2.2.2.1, h.2.2.2.2.1, h.2.2.2.2.2.1, ?_⟩
      intro p hp
      cases hp
    rw [if_neg n1]
    by_cases n2 : c.toNat = 8
    · rw [if_pos n2]; exact invp_moveCursorLeft s 1 h (by omega)
    rw [if_neg n2]
    by_cases n3 : c.toNat = 9
    · rw [if_pos n3]; exact invp_tab s h
    rw [if_neg n3]
    by_cases n4 : c.toNat = 10
    · rw [if_pos n4]; exact (invp_lineFeed s h).1
    rw [if_neg n4]
    by_cases n5 : c.toNat = 13
    · rw [if_pos n5]; exact invp_carriageReturn s h
    rw [if_neg n5]
    by_cases n6 : c.toNat = 7
    · rw [if_pos n6]; exact h
    rw [if_neg n6]
    by_cases n7 : 32 ≤ c.toNat
    · rw [if_pos n7]; exact invp_printChar s c h
    rw [if_neg n7]
    exact h
  case escape =>
    unfold handleEscapeChar
    by_cases e1 : c = '['
    · rw [if_pos e1]; exact h
    rw [if_neg e1]
    by_cases e2 : c = ']'
    · rw [if_pos e2]; exact h
    rw [if_neg e2]
    by_cases e3 : c = 'D'
    · rw [if_pos e3]
      have h2 := (invp_lineFeed s h).1
      exact ⟨h2.1, h2.2.1, h2.2.2.1, h2.2.2.2.1, h2.2.2.2.2.1, h2.2.2.2.2.2.1,
        h.2.2.2.2.2.2⟩
    rw [if_neg e3]
    by_cases e4 : c = 'M'
    · rw [if_pos e4]
      have h2 := invp_reverseIndex s h
      exact ⟨h2.1, h2.2.1, h2.2.2.1, h2.2.2.2.1, h2.2.2.2.2.1, h2.2.2.2.2.2.1,
        h.2.2.2.2.2.2⟩
    rw [if_neg e4]
    by_cases e5 : c = 'E'
    · rw [if_pos e5]
      have h2 := invp_nextLine s h
      exact ⟨h2.1, h2.2.1, h2.2.2.1, h2.2.2.2.1, h2.2.2.2.2.1, h2.2.2.2.2.2.1,
        h.2.2.2.2.2.2⟩
    rw [if_neg e5]
    by_cases e6 : c = '7'
    · rw [if_pos e6]
      have h2 := invp_saveCursor s h
      exact ⟨h2.1, h2.2.1, h2.2.2.1, h2.2.2.2.1, h2.2.2.2.2.1, h2.2.2.2.2.2.1,
        h.2.2.2.2.2.2⟩
    rw [if_neg e6]
    by_cases e7 : c = '8'
    · rw [if_pos e7]
      have h2 := invp_restoreCursor s h
      exact ⟨h2.1, h2.2.1, h2.2.2.1, h2.2.2.2.1, h2.2.2.2.2.1, h2.2.2.2.2.2.1,
        h.2.2.2.2.2.2⟩
    rw [if_neg e7]
    by_cases e8 : c = 'c'
    · rw [if_pos e8]
      have h2 := invp_reset s h
      exact ⟨h2.1, h2.2.1, h2.2.2.1, h2.2.2.2.1, h2.2.2.2.2.1, h2.2.2.2.2.2.1,
        h.2.2.2.2.2.2⟩
    rw [if_neg e8]
    exact h
  case csi =>
    unfold handleCSIChar
    dsimp only
    by_cases d1 : isDigitCode c.toNat = true
    · rw [if_pos d1]; exact h
    rw [if_neg d1]
    by_cases d2 : c = ';'
    · rw [if_pos d2]
      refine ⟨h.1, h.2.1, h.2.2.1, h.2.2.2.1, h.2.2.2.2.1, h.2.2.2.2.2.1, ?_⟩
      intro p hp
      rcases List.mem_append.1 hp with hp | hp
      · exact h.2.2.2.2.2.2 p hp
      · rw [List.mem_singleton] at hp
        rw [hp]
        exact paramVal_nonneg _
    rw [if_neg d2]
    by_cases d3 : isIntermediateCode c.toNat = true
    · rw [if_pos d3]; exact h
    rw [if_neg d3]
    by_cases d4 : c = '?'
    · rw [if_pos d4]; exact h
    rw [if_neg d4]
    have hfin : csiFinal c = true := by
      simp only [Bool.not_eq_true] at d1 d3
      simp [csiFinal, d1, d3, d2, d4]
    have hflush := flushParams_nonneg s.parseState h.2.2.2.2.2.2
    have hsafe2 : ¬(c = 'r' ∧ (s.rows : Int) < getP (flushParams s.parseState) 0 1) := by
      simp only [stepSafeRegion, hst, decide_eq_true_eq] at hsafe
      intro hcon
      exact hsafe ⟨hfin, hcon.1, hcon.2⟩
    have h2 := invp_handleCSISequence s c (flushParams s.parseState)
      s.parseState.intermediate h hflush hsafe2
    exact ⟨h2.1, h2.2.1, h2.2.2.1, h2.2.2.2.1, h2.2.2.2.2.1, h2.2.2.2.2.2.1, hflush⟩
  case osc =>
    unfold handleOSCChar
    split
    · exact h
    · exact h

theorem invp_processChars (s : VTState) (data : List Char) (h : InvP s)
    (hsafe : safeRun stepSafeRegion s data = true) : InvP (processChars s data) := by
  induction data generalizing s with
  | nil => exact h
  | cons c rest ih =>
    unfold safeRun at hsafe
    rw [Bool.and_eq_true] at hsafe
    unfold processChars
    rw [List.foldl_cons]
    exact ih (processChar s c) (invp_processChar s c h hsafe.1) hsafe.2

theorem invp_write (s : VTState) (data : List Char) (h : InvP s)
    (hsafe : safeRun stepSafeRegion s data = true) : InvP (write s data) := by
  have h1 := invp_processChars s data h hsafe
  by_cases hch : renderScreen (processChars s data) = renderScreen s
  · rw [write_of_no_change s data hch]; exact h1
  · rw [write_of_change s data hch]
    exact ⟨h1.1, h1.2.1, h1.2.2.1, h1.2.2.2.1, h1.2.2.2.2.1, h1.2.2.2.2.2.1,
      h1.2.2.2.2.2.2⟩

/-- C3 amended: the corrected cursor invariant is 0 ≤ x ≤ cols (x = cols is
the deferred-wrap position reached after printing in the last column;
the project test suite itself asserts cursor (5,1) on a 5-column
terminal) and 0 ≤ y < rows. Every write from a state satisfying the
invariant preserves it — and with it the cursor bounds — provided no CSI r
in the write sets a scroll region whose 1-indexed top argument exceeds
rows (setScrollRegion clamps the stored top only from below and parks the
cursor on it, so a larger argument pushes the cursor below the last row).
resize clamps the live cursor into the new bounds whenever the new
dimensions are positive (the saved cursor is left unclamped). -/
theorem claim3_cursor_bounds :
    (∀ (s : VTState) (data : List Char), inv3 s = true →
      safeRun stepSafeRegion s data = true →
      inv3 (write s data) = true ∧
      0 ≤ (write s data).cursor.x ∧
      (write s data).cursor.x ≤ ((write s data).cols : Int) ∧
      0 ≤ (write s data).cursor.y ∧
      (write s data).cursor.y < ((write s data).rows : Int)) ∧
    (∀ (s : VTState) (newCols newRows : Nat), 1 ≤ newCols → 1 ≤ newRows →
      0 ≤ s.cursor.x → 0 ≤ s.cursor.y →
      0 ≤ (resize s newCols newRows).cursor.x ∧
      (resize s newCols newRows).cursor.x < ((resize s newCols newRows).cols : Int) ∧
      0 ≤ (resize s newCols newRows).cursor.y ∧
      (resize s newCols newRows).cursor.y < ((resize s newCols newRows).rows : Int)) := by
  constructor
  · intro s data h hsafe
    have h1 := invp_write s data ((inv3_iff s).1 h) hsafe
    refine ⟨(inv3_iff (write s data)).2 h1, h1.1.1, h1.1.2.1, h1.1.2.2.1, h1.1.2.2.2⟩
  · intro s newCols newRows hc hr hx hy
    have hc1 : (1 : Int) ≤ (newCols : Int) := by exact_mod_cast hc
    have hr1 : (1 : Int) ≤ (newRows : Int) := by exact_mod_cast hr
    refine ⟨show (0 : Int) ≤ min s.cursor.x ((newCols : Int) - 1) by omega,
      show min s.cursor.x ((newCols : Int) - 1) < (newCols : Int) by omega,
      show (0 : Int) ≤ min s.cursor.y ((newRows : Int) - 1) by omega,
      show min s.cursor.y ((newRows : Int) - 1) < (newRows : Int) by omega⟩

/-- C3 witness: the write part applied to a fresh 5 by 3 terminal and the
input AAAAA (which drives the cursor to the deferred-wrap position
x = cols), discharging the invariant and safety hypotheses by computation. -/
theorem claim3_witness :
    inv3 (write (initState 5 3) ("AAAAA").toList) = true ∧
    0 ≤ (write (initState 5 3) ("AAAAA").toList).cursor.x ∧
    (write (initState 5 3) ("AAAAA").toList).cursor.x ≤
      ((write (initState 5 3) ("AAAAA").toList).cols : Int) ∧
    0 ≤ (write (initState 5 3) ("AAAAA").toList).cursor.y ∧
    (write (initState 5 3) ("AAAAA").toList).cursor.y <
      ((write (initState 5 3) ("AAAAA").toList).rows : Int) :=
  claim3_cursor_bounds.1 (initState 5 3) ("AAAAA").toList (by decide) (by decide)

end VT

/-! ## Row-level characterization of the scroll loops (C4, C9) -/

namespace VT

theorem setRow_length (b : Buffer) (y : Int) (row : List Cell) :
    (setRow b y row).length = b.length := by
  unfold setRow
  split <;> simp

theorem getRow_neg (b : Buffer) (y : Int) (hy : y < 0) : getRow b y = [] := by
  unfold getRow
  rw [if_neg (by omega)]

theorem getRow_big (b : Buffer) (y : Int) (hy : (b.length : Int) ≤ y) :
    getRow b y = [] := by
  unfold getRow
  split
  · apply List.getD_eq_default
    omega
  · rfl

theorem getRow_setRow_self (b : Buffer) (y : Int) (row : List Cell)
    (hy : 0 ≤ y) (hlt : y < (b.length : Int)) :
    getRow (setRow b y row) y = row := by
  unfold getRow setRow
  rw [if_pos hy, if_pos hy]
  have h : y.toNat < b.length := by omega
  simp [List.getD, List.getElem?_set_self, h]

theorem getRow_setRow_ne (b : Buffer) (y y' : Int) (row : List Cell)
    (hne : y' ≠ y) : getRow (setRow b y row) y' = getRow b y' := by
  unfold getRow setRow
  by_cases hy' : 0 ≤ y'
  · rw [if_pos hy', if_pos hy']
    by_cases hy : 0 ≤ y
    · rw [if_pos hy]
      have hnat : y.toNat ≠ y'.toNat := by omega
      simp [List.getD, List.getElem?_set_ne hnat]
    · rw [if_neg hy]
  · rw [if_neg hy', if_neg hy']

theorem copyUpLoop_length (b : Buffer) (y : Int) (n : Nat) :
    (copyUpLoop b y n).length = b.length := by
  induction n generalizing b y with
  | zero => rfl
  | succ n ih =>
    unfold copyUpLoop
    rw [ih, setRow_length]

theorem copyDownLoop_length (b : Buffer) (y : Int) (n : Nat) :
    (copyDownLoop b y n).length = b.length := by
  induction n generalizing b y with
  | zero => rfl
  | succ n ih =>
    unfold copyDownLoop
    rw [ih, setRow_length]

theorem copyUpLoop_getRow (b : Buffer) (y : Int) (n : Nat)
    (hy : 0 ≤ y) (hn : y + n ≤ (b.length : Int)) (r : Int) :
    getRow (copyUpLoop b y n) r =
      if y ≤ r ∧ r < y + n then getRow b (r + 1) else getRow b r := by
  induction n generalizing b y with
  | zero =>
    rw [if_neg (by omega)]
    rfl
  | succ n ih =>
    unfold copyUpLoop
    have hlen : ((setRow b y (getRow b (y + 1))).length : Int) = (b.length : Int) := by
      rw [setRow_length]
    have ih2 := ih (setRow b y (getRow b (y + 1))) (y + 1) (by omega) (by omega)
    rw [ih2]
    by_cases hr : y + 1 ≤ r ∧ r < y + 1 + n
    · rw [if_pos hr, if_pos (by omega)]
      exact getRow_setRow_ne _ _ _ _ (by omega)
    · rw [if_neg hr]
      by_cases hry : r = y
      · subst hry
        rw [if_pos (by omega)]
        exact getRow_setRow_self _ _ _ hy (by push_cast at hn ⊢; omega)
      · rw [if_neg (by omega)]
        exact getRow_setRow_ne _ _ _ _ hry

theorem copyDownLoop_getRow (b : Buffer) (y : Int) (n : Nat)
    (hy : (0 : Int) ≤ y - n) (hn : y < (b.length : Int)) (r : Int) :
    getRow (copyDownLoop b y n) r =
      if y - n < r ∧ r ≤ y then getRow b (r - 1) else getRow b r := by
  induction n generalizing b y with
  | zero =>
    rw [if_neg (by omega)]
    rfl
  | succ n ih =>
    unfold copyDownLoop
    have hlen : ((setRow b y (getRow b (y - 1))).length : Int) = (b.length : Int) := by
      rw [setRow_length]
    have ih2 := ih (setRow b y (getRow b (y - 1))) (y - 1) (by push_cast at hy ⊢; omega)
      (by omega)
    rw [ih2]
    by_cases hr : (y - 1) - n < r ∧ r ≤ y - 1
    · rw [if_pos hr, if_pos (by push_cast at hy ⊢; omega)]
      exact getRow_setRow_ne _ _ _ _ (by omega)
    · rw [if_neg hr]
      by_cases hry : r = y
      · subst hry
        rw [if_pos (by push_cast at hy ⊢; omega)]
        exact getRow_setRow_self _ _ _ (by push_cast at hy ⊢; omega) hn
      · rw [if_neg (by push_cast at hr ⊢; omega)]
        exact getRow_setRow_ne _ _ _ _ hry

theorem writeBlanks_range (a : Attr) (k : Nat) (row : List Cell)
    (hk : k ≤ row.length) :
    writeBlanks a row (List.range k) = blankRow k a ++ row.drop k := by
  induction k with
  | zero => simp [writeBlanks, blankRow]
  | succ k ih =>
    have hk1 : k ≤ row.length := by omega
    unfold writeBlanks
    rw [List.range_succ, List.foldl_append]
    have ihr : writeBlanks a row (List.range k) = blankRow k a ++ row.drop k := ih hk1
    unfold writeBlanks at ihr
    rw [ihr]
    simp only [List.foldl_cons, List.foldl_nil]
    have hlen2 : (blankRow k a ++ row.drop k).length = row.length := by
      simp [blankRow]
      omega
    unfold rowSet
    rw [if_pos (by omega)]
    have hkb : (blankRow k a).length = k := by simp [blankRow]
    have hdrop : row.drop k = row.get ⟨k, by omega⟩ :: row.drop (k + 1) :=
      List.drop_eq_get_cons (by omega)
    rw [hdrop, List.set_append_right _ _ (le_of_eq hkb)]
    simp only [hkb, Nat.sub_self, List.set_cons_zero]
    rw [List.append_cons]
    congr 1
    simp [blankRow, List.replicate_succ']

theorem clearRow_eq_blankRow (cols : Nat) (a : Attr) (row : List Cell)
    (hlen : row.length = cols) : clearRow cols a row = blankRow cols a := by
  unfold clearRow
  rw [writeBlanks_range a cols row (by omega)]
  rw [List.drop_eq_nil_of_le (by omega), List.append_nil]

theorem getRow_mem (b : Buffer) (r : Int) (h0 : 0 ≤ r) (hr : r < (b.length : Int)) :
    getRow b r ∈ b := by
  unfold getRow
  rw [if_pos h0]
  have h : r.toNat < b.length := by omega
  rw [List.getD_eq_getElem _ _ h]
  exact List.getElem_mem h

theorem scrollUpOnce_getRow (cols : Nat) (a : Attr) (sr : ScrollRegion) (b : Buffer)
    (htop : 0 ≤ sr.top) (hbot : sr.bottom < (b.length : Int))
    (hreg : sr.top ≤ sr.bottom)
    (hlen : ∀ row ∈ b, row.length = cols) (r : Int) :
    getRow (scrollUpOnce cols a sr b) r =
      if sr.top ≤ r ∧ r < sr.bottom then getRow b (r + 1)
      else if r = sr.bottom then blankRow cols a
      else getRow b r := by
  unfold scrollUpOnce clearLineBuf
  have hn : sr.top + ((sr.bottom - sr.top).toNat : Int) = sr.bottom := by omega
  have hcopy := copyUpLoop_getRow b sr.top (sr.bottom - sr.top).toNat htop
    (by omega) 
  have hbotrow : getRow (copyUpLoop b sr.top (sr.bottom - sr.top).toNat) sr.bottom =
      getRow b sr.bottom := by
    rw [hcopy sr.bottom, if_neg (by omega)]
  have hblen : getRow b sr.bottom ∈ b := getRow_mem b sr.bottom (by omega) hbot
  have hclear : clearRow cols a (getRow (copyUpLoop b sr.top
      (sr.bottom - sr.top).toNat) sr.bottom) = blankRow cols a := by
    rw [hbotrow]
    exact clearRow_eq_blankRow cols a _ (hlen _ hblen)
  rw [hclear]
  by_cases hrb : r = sr.bottom
  · subst hrb
    rw [getRow_setRow_self _ _ _ (by omega) (by rw [copyUpLoop_length]; exact hbot)]
    rw [if_neg (by omega), if_pos rfl]
  · rw [getRow_setRow_ne _ _ _ _ hrb, hcopy r]
    by_cases hrin : sr.top ≤ r ∧ r < sr.bottom
    · rw [if_pos (by omega), if_pos hrin]
    · rw [if_neg (by omega), if_neg hrin, if_neg hrb]

theorem scrollDownOnce_getRow (cols : Nat) (a : Attr) (sr : ScrollRegion) (b : Buffer)
    (htop : 0 ≤ sr.top) (hbot : sr.bottom < (b.length : Int))
    (hreg : sr.top ≤ sr.bottom)
    (hlen : ∀ row ∈ b, row.length = cols) (r : Int) :
    getRow (scrollDownOnce cols a sr b) r =
      if sr.top < r ∧ r ≤ sr.bottom then getRow b (r - 1)
      else if r = sr.top then blankRow cols a
      else getRow b r := by
  unfold scrollDownOnce clearLineBuf
  have hn : sr.bottom - ((sr.bottom - sr.top).toNat : Int) = sr.top := by omega
  have hcopy := copyDownLoop_getRow b sr.bottom (sr.bottom - sr.top).toNat
    (by omega) hbot
  have htoprow : getRow (copyDownLoop b sr.bottom (sr.bottom - sr.top).toNat) sr.top =
      getRow b sr.top := by
    rw [hcopy sr.top, if_neg (by omega)]
  have hblen : getRow b sr.top ∈ b := getRow_mem b sr.top htop (by omega)
  have hclear : clearRow cols a (getRow (copyDownLoop b sr.bottom
      (sr.bottom - sr.top).toNat) sr.top) = blankRow cols a := by
    rw [htoprow]
    exact clearRow_eq_blankRow cols a _ (hlen _ hblen)
  rw [hclear]
  by_cases hrt : r = sr.top
  · subst hrt
    rw [getRow_setRow_self _ _ _ htop (by rw [copyDownLoop_length]; omega)]
    rw [if_neg (by omega), if_pos rfl]
  · rw [getRow_setRow_ne _ _ _ _ hrt, hcopy r]
    by_cases hrin : sr.top < r ∧ r ≤ sr.bottom
    · rw [if_pos (by omega), if_pos hrin]
    · rw [if_neg (by omega), if_neg hrin, if_neg hrt]

end VT

namespace VT

/-- C4 amended: lineFeed sets cursor.x to 0; when the cursor is at (or
past) the last row of the whole buffer (rows-1, regardless of the
scroll-region bottom) it scrolls the scroll region — not the full
buffer — up by one row: rows top..bottom-1 take the contents of the row
below, the region bottom is blanked, and every row outside the region is
untouched; otherwise it just increments cursor.y. -/
theorem claim4_lineFeed_spec (s : VTState)
    (htop : 0 ≤ s.scrollRegion.top)
    (hreg : s.scrollRegion.top ≤ s.scrollRegion.bottom)
    (hbot : s.scrollRegion.bottom < (s.buffer.length : Int))
    (hlen : ∀ row ∈ s.buffer, row.length = s.cols) :
    (lineFeed s).cursor.x = 0 ∧
    (s.cursor.y < (s.rows : Int) - 1 →
      lineFeed s = { s with cursor := ⟨0, s.cursor.y + 1⟩ }) ∧
    ((s.rows : Int) - 1 ≤ s.cursor.y →
      (lineFeed s).cursor.y = s.cursor.y ∧
      (∀ r : Int, s.scrollRegion.top ≤ r → r < s.scrollRegion.bottom →
        getRow (lineFeed s).buffer r = getRow s.buffer (r + 1)) ∧
      getRow (lineFeed s).buffer s.scrollRegion.bottom =
        blankRow s.cols s.currentAttr ∧
      (∀ r : Int, r < s.scrollRegion.top ∨ s.scrollRegion.bottom < r →
        getRow (lineFeed s).buffer r = getRow s.buffer r)) := by
  have hdef : lineFeed s =
      if s.cursor.y ≥ (s.rows : Int) - 1
      then scrollUpN { s with cursor := ⟨0, s.cursor.y⟩ } 1
      else { s with cursor := ⟨0, s.cursor.y + 1⟩ } := by
    unfold lineFeed
    rfl
  have hscroll : scrollUpN { s with cursor := ⟨0, s.cursor.y⟩ } 1 =
      { s with cursor := ⟨0, s.cursor.y⟩, buffer := scrollUpOnce s.cols s.currentAttr s.scrollRegion s.buffer } := rfl
  refine ⟨?_, ?_, ?_⟩
  · rw [hdef]
    by_cases hc : s.cursor.y ≥ (s.rows : Int) - 1
    · rw [if_pos hc, hscroll]
    · rw [if_neg hc]
  · intro hlt
    rw [hdef, if_neg (by omega)]
  · intro hge
    rw [hdef, if_pos (by omega), hscroll]
    refine ⟨rfl, ?_, ?_, ?_⟩
    · intro r h1 h2
      show getRow (scrollUpOnce s.cols s.currentAttr s.scrollRegion s.buffer) r = _
      rw [scrollUpOnce_getRow s.cols s.currentAttr s.scrollRegion s.buffer
        htop hbot hreg hlen r, if_pos ⟨h1, h2⟩]
    · show getRow (scrollUpOnce s.cols s.currentAttr s.scrollRegion s.buffer)
        s.scrollRegion.bottom = _
      rw [scrollUpOnce_getRow s.cols s.currentAttr s.scrollRegion s.buffer
        htop hbot hreg hlen s.scrollRegion.bottom, if_neg (by omega), if_pos rfl]
    · intro r hr
      show getRow (scrollUpOnce s.cols s.currentAttr s.scrollRegion s.buffer) r = _
      rw [scrollUpOnce_getRow s.cols s.currentAttr s.scrollRegion s.buffer
        htop hbot hreg hlen r, if_neg (by omega), if_neg (by omega)]

/-- C4 witness: the 1 by 3 terminal with scroll region rows 0..1, screen
A, B, C and cursor on the last buffer row: the line feed keeps the cursor
row, blanks the region bottom (row 1) and leaves row 2 — outside the
region — untouched. -/
theorem claim4_witness :
    (lineFeed (write (initState 1 3)
      ("\x1b[1;2rA\x1b[2;1HB\x1b[3;1HC").toList)).cursor.x = 0 ∧
    (lineFeed (write (initState 1 3)
      ("\x1b[1;2rA\x1b[2;1HB\x1b[3;1HC").toList)).cursor.y =
      (write (initState 1 3) ("\x1b[1;2rA\x1b[2;1HB\x1b[3;1HC").toList).cursor.y ∧
    getRow (lineFeed (write (initState 1 3)
      ("\x1b[1;2rA\x1b[2;1HB\x1b[3;1HC").toList)).buffer
      (write (initState 1 3)
        ("\x1b[1;2rA\x1b[2;1HB\x1b[3;1HC").toList).scrollRegion.bottom =
      blankRow (write (initState 1 3)
        ("\x1b[1;2rA\x1b[2;1HB\x1b[3;1HC").toList).cols
        (write (initState 1 3)
          ("\x1b[1;2rA\x1b[2;1HB\x1b[3;1HC").toList).currentAttr ∧
    getRow (lineFeed (write (initState 1 3)
      ("\x1b[1;2rA\x1b[2;1HB\x1b[3;1HC").toList)).buffer 2 =
      getRow (write (initState 1 3)
        ("\x1b[1;2rA\x1b[2;1HB\x1b[3;1HC").toList).buffer 2 := by
  have h := claim4_lineFeed_spec
    (write (initState 1 3) ("\x1b[1;2rA\x1b[2;1HB\x1b[3;1HC").toList)
    (by decide) (by decide) (by decide) (by decide)
  have h3 := h.2.2 (by decide)
  exact ⟨h.1, h3.1, h3.2.2.1, h3.2.2.2 2 (by decide)⟩

/-- C9 amended: reverseIndex scrolls the scroll region down by one row
whenever the cursor row is less than or equal to scrollRegion.top —
including cursor rows strictly above the top — leaving the cursor in
place; only when the cursor is strictly below the region top does it move
the cursor up one row without touching the buffer. -/
theorem claim9_reverseIndex_spec (s : VTState)
    (htop : 0 ≤ s.scrollRegion.top)
    (hreg : s.scrollRegion.top ≤ s.scrollRegion.bottom)
    (hbot : s.scrollRegion.bottom < (s.buffer.length : Int))
    (hlen : ∀ row ∈ s.buffer, row.length = s.cols) :
    (s.scrollRegion.top < s.cursor.y →
      reverseIndex s = { s with cursor := ⟨s.cursor.x, s.cursor.y - 1⟩ }) ∧
    (s.cursor.y ≤ s.scrollRegion.top →
      (reverseIndex s).cursor = s.cursor ∧
      (∀ r : Int, s.scrollRegion.top < r → r ≤ s.scrollRegion.bottom →
        getRow (reverseIndex s).buffer r = getRow s.buffer (r - 1)) ∧
      getRow (reverseIndex s).buffer s.scrollRegion.top =
        blankRow s.cols s.currentAttr ∧
      (∀ r : Int, r < s.scrollRegion.top ∨ s.scrollRegion.bottom < r →
        getRow (reverseIndex s).buffer r = getRow s.buffer r)) := by
  have hdef : reverseIndex s =
      if s.cursor.y ≤ s.scrollRegion.top
      then scrollDownN s 1
      else { s with cursor := ⟨s.cursor.x, s.cursor.y - 1⟩ } := by
    unfold reverseIndex
    rfl
  have hscroll : scrollDownN s 1 =
      { s with buffer := scrollDownOnce s.cols s.currentAttr s.scrollRegion s.buffer } :=
    rfl
  constructor
  · intro hgt
    rw [hdef, if_neg (by omega)]
  · intro hle
    rw [hdef, if_pos hle, hscroll]
    refine ⟨rfl, ?_, ?_, ?_⟩
    · intro r h1 h2
      show getRow (scrollDownOnce s.cols s.currentAttr s.scrollRegion s.buffer) r = _
      rw [scrollDownOnce_getRow s.cols s.currentAttr s.scrollRegion s.buffer
        htop hbot hreg hlen r, if_pos ⟨h1, h2⟩]
    · show getRow (scrollDownOnce s.cols s.currentAttr s.scrollRegion s.buffer)
        s.scrollRegion.top = _
      rw [scrollDownOnce_getRow s.cols s.currentAttr s.scrollRegion s.buffer
        htop hbot hreg hlen s.scrollRegion.top, if_neg (by omega), if_pos rfl]
    · intro r hr
      show getRow (scrollDownOnce s.cols s.currentAttr s.scrollRegion s.buffer) r = _
      rw [scrollDownOnce_getRow s.cols s.currentAttr s.scrollRegion s.buffer
        htop hbot hreg hlen r, if_neg (by omega), if_neg (by omega)]

/-- C9 witness: the 1 by 3 terminal with scroll region rows 1..2, A on
row 1 and the cursor at row 0 (strictly above the region top):
reverseIndex keeps the cursor, moves row 1 into row 2 and blanks the
region top. -/
theorem claim9_witness :
    (reverseIndex (write (initState 1 3)
      ("\x1b[2;3rA\x1b[1;1H").toList)).cursor =
      (write (initState 1 3) ("\x1b[2;3rA\x1b[1;1H").toList).cursor ∧
    getRow (reverseIndex (write (initState 1 3)
      ("\x1b[2;3rA\x1b[1;1H").toList)).buffer 2 =
      getRow (write (initState 1 3) ("\x1b[2;3rA\x1b[1;1H").toList).buffer 1 ∧
    getRow (reverseIndex (write (initState 1 3)
      ("\x1b[2;3rA\x1b[1;1H").toList)).buffer
      (write (initState 1 3) ("\x1b[2;3rA\x1b[1;1H").toList).scrollRegion.top =
      blankRow (write (initState 1 3) ("\x1b[2;3rA\x1b[1;1H").toList).cols
        (write (initState 1 3) ("\x1b[2;3rA\x1b[1;1H").toList).currentAttr := by
  have h := claim9_reverseIndex_spec
    (write (initState 1 3) ("\x1b[2;3rA\x1b[1;1H").toList)
    (by decide) (by decide) (by decide) (by decide)
  have h2 := h.2 (by decide)
  refine ⟨h2.1, ?_, h2.2.2.1⟩
  have h21 := h2.2.1 2 (by decide) (by decide)
  simpa using h21

end VT

/-! ## Printing runs of printable characters (C7) -/

namespace VT

theorem setCell_length (b : Buffer) (y x : Int) (c : Cell) :
    (setCell b y x c).length = b.length := by
  unfold setCell
  split
  · rw [setRow_length]
  · rfl

theorem getRow_setCell_ne (b : Buffer) (y x : Int) (c : Cell) (r : Int)
    (hne : r ≠ y) : getRow (setCell b y x c) r = getRow b r := by
  unfold setCell
  split
  · exact getRow_setRow_ne _ _ _ _ hne
  · rfl

theorem getRow_setCell_self (b : Buffer) (y x : Int) (c : Cell)
    (hy : 0 ≤ y) (hx : 0 ≤ x) (hlt : y < (b.length : Int)) :
    getRow (setCell b y x c) y = rowSet (getRow b y) x.toNat c := by
  unfold setCell
  rw [if_pos ⟨hy, hx⟩]
  exact getRow_setRow_self _ _ _ hy hlt

theorem bufFill_getRow_ne (a : Attr) (cs : List Char) (b : Buffer) (y x : Int)
    (r : Int) (hne : r ≠ y) : getRow (bufFill a b y x cs) r = getRow b r := by
  induction cs generalizing b x with
  | nil => rfl
  | cons c rest ih =>
    unfold bufFill
    rw [ih (setCell b y x ⟨c, a⟩) (x + 1), getRow_setCell_ne _ _ _ _ _ hne]

theorem bufFill_length (a : Attr) (cs : List Char) (b : Buffer) (y x : Int) :
    (bufFill a b y x cs).length = b.length := by
  induction cs generalizing b x with
  | nil => rfl
  | cons c rest ih =>
    unfold bufFill
    rw [ih (setCell b y x ⟨c, a⟩) (x + 1), setCell_length]

theorem bufFill_getRow_self (a : Attr) (cs : List Char) (b : Buffer) (y x : Nat)
    (hy : (y : Int) < (b.length : Int)) :
    getRow (bufFill a b (y : Int) (x : Int) cs) (y : Int) =
      rowFill a (getRow b (y : Int)) x cs := by
  induction cs generalizing b x with
  | nil => rfl
  | cons c rest ih =>
    unfold bufFill rowFill
    have hlen : ((setCell b (y : Int) (x : Int) ⟨c, a⟩).length : Int) = (b.length : Int) := by
      rw [setCell_length]
    have hx1 : ((x : Int) + 1) = ((x + 1 : Nat) : Int) := by push_cast; ring
    rw [hx1, ih (setCell b (y : Int) (x : Int) ⟨c, a⟩) (x + 1) (by omega)]
    rw [getRow_setCell_self _ _ _ _ (Int.ofNat_nonneg y) (Int.ofNat_nonneg x) hy]
    rw [Int.toNat_ofNat]

theorem rowFill_map (a : Attr) (cs : List Char) (row : List Cell) (x : Nat)
    (hx : x + cs.length ≤ row.length) :
    (rowFill a row x cs).map (fun cell => cell.char) =
      (row.map (fun cell => cell.char)).take x ++ cs ++
        (row.map (fun cell => cell.char)).drop (x + cs.length) := by
  induction cs generalizing row x with
  | nil =>
    unfold rowFill
    simp
  | cons c rest ih =>
    unfold rowFill
    have hxlt : x < row.length := by
      simp only [List.length_cons] at hx
      omega
    have hset : rowSet row x ⟨c, a⟩ = row.set x ⟨c, a⟩ := by
      unfold rowSet
      rw [if_pos hxlt]
    rw [hset]
    have hlen2 : (row.set x ⟨c, a⟩).length = row.length := by simp
    rw [ih (row.set x ⟨c, a⟩) (x + 1) (by simp only [hlen2]; simp only [List.length_cons] at hx; omega)]
    rw [List.map_set]
    set L := row.map (fun cell => cell.char) with hL
    have hLlen : L.length = row.length := by simp [hL]
    have hdec : L.set x c = L.take x ++ c :: L.drop (x + 1) :=
      List.set_eq_take_cons_drop _ (by omega)
    have htake : (L.set x c).take (x + 1) = L.take x ++ [c] := by
      rw [hdec, List.take_append_eq_append_take]
      have h1 : (L.take x).length = x := by simp; omega
      rw [List.take_of_length_le (by omega), h1]
      simp
    have hdrop : (L.set x c).drop (x + 1 + rest.length) = L.drop (x + (rest.length + 1)) := by
      rw [hdec, List.drop_append_eq_append_drop]
      have h1 : (L.take x).length = x := by simp; omega
      rw [List.drop_of_length_le (by omega), h1]
      have h2 : x + 1 + rest.length - x = 1 + rest.length := by omega
      rw [h2]
      simp only [List.nil_append]
      show (c :: L.drop (x + 1)).drop (1 + rest.length) = _
      rw [show 1 + rest.length = rest.length + 1 from by omega]
      rw [List.drop_succ_cons, List.drop_drop]
      congr 1
      omega
    rw [htake, hdrop]
    simp only [List.length_cons]
    rw [show x + (rest.length + 1) = x + (rest.length + 1) from rfl]
    simp [List.append_assoc]

end VT

namespace VT

theorem processChars_append (s : VTState) (l1 l2 : List Char) :
    processChars s (l1 ++ l2) = processChars (processChars s l1) l2 := by
  unfold processChars
  rw [List.foldl_append]

theorem write_buffer_cursor (s : VTState) (data : List Char) :
    (write s data).buffer = (processChars s data).buffer ∧
    (write s data).cursor = (processChars s data).cursor := by
  by_cases h : renderScreen (processChars s data) = renderScreen s
  · rw [write_of_no_change s data h]
    exact ⟨rfl, rfl⟩
  · rw [write_of_change s data h]
    exact ⟨rfl, rfl⟩

theorem createEmptyBuffer_length (cols rows : Nat) (a : Attr) :
    (createEmptyBuffer cols rows a).length = rows := by
  unfold createEmptyBuffer
  exact List.length_replicate rows _

theorem getRow_createEmptyBuffer (cols rows : Nat) (a : Attr) (y : Nat)
    (hy : y < rows) :
    getRow (createEmptyBuffer cols rows a) (y : Int) = blankRow cols a := by
  unfold getRow createEmptyBuffer
  rw [if_pos (Int.ofNat_nonneg y), Int.toNat_ofNat]
  rw [List.getD_eq_getElem _ _ (by simpa using hy)]
  simp

theorem blankRow_map_char (cols : Nat) (a : Attr) :
    (blankRow cols a).map (fun cell => cell.char) = List.replicate cols ' ' := by
  unfold blankRow blankCell
  rw [List.map_replicate]

theorem rowChars_getRow (s : VTState) (y : Nat) :
    rowChars s y = (getRow s.buffer (y : Int)).map (fun cell => cell.char) := by
  unfold rowChars getRow
  rw [if_pos (Int.ofNat_nonneg y), Int.toNat_ofNat]

theorem processChars_printRun (data : List Char) (s : VTState) (x y : Int)
    (hx0 : 0 ≤ x)
    (hnorm : s.parseState.state = PMode.normal)
    (hp : ∀ c ∈ data, 32 ≤ c.toNat)
    (hc : s.cursor = ⟨x, y⟩)
    (hx : x + data.length ≤ (s.cols : Int)) :
    processChars s data =
      { s with buffer := bufFill s.currentAttr s.buffer y x data,
               cursor := ⟨x + data.length, y⟩ } := by
  induction data generalizing s x with
  | nil =>
    show s = _
    simp only [bufFill, List.length_nil, Nat.cast_zero, add_zero]
    rw [← hc]
  | cons c rest ih =>
    have hc32 : 32 ≤ c.toNat := hp c (List.mem_cons_self c rest)
    have hx2 : x + ((rest.length : Int) + 1) ≤ (s.cols : Int) := by
      simp only [List.length_cons] at hx
      push_cast at hx
      omega
    have hxlt : x < (s.cols : Int) := by
      have hr0 : (0 : Int) ≤ (rest.length : Int) := Int.ofNat_nonneg _
      omega
    have hpc : processChar s c =
        { s with buffer := setCell s.buffer y x ⟨c, s.currentAttr⟩,
                 cursor := ⟨x + 1, y⟩ } := by
      have h0 : processChar s c = handleNormalChar s c := by
        unfold processChar
        rw [hnorm]
      rw [h0]
      unfold handleNormalChar
      dsimp only
      rw [if_neg (by omega), if_neg (by omega), if_neg (by omega), if_neg (by omega),
          if_neg (by omega), if_neg (by omega), if_pos hc32]
      unfold printChar
      dsimp only
      rw [hc]
      dsimp only
      rw [if_neg (show ¬(x ≥ (s.cols : Int)) by omega)]
      rw [hc]
    show processChars (processChar s c) rest = _
    rw [hpc]
    have hres := ih
      { s with buffer := setCell s.buffer y x ⟨c, s.currentAttr⟩,
               cursor := ⟨x + 1, y⟩ }
      (x + 1)
      (by omega)
      hnorm
      (fun d hd => hp d (List.mem_cons_of_mem c hd))
      rfl
      (by show x + 1 + (rest.length : Int) ≤ (s.cols : Int)
          omega)
    rw [hres]
    simp only [bufFill, List.length_cons]
    rw [show x + (((rest.length + 1 : Nat)) : Int) = x + 1 + (rest.length : Int) from by
      push_cast
      ring]

end VT

/-! ## Claim 7: wrapping a run of printable characters -/

namespace VT

theorem processChar_print (s : VTState) (c : Char)
    (hnorm : s.parseState.state = PMode.normal) (hc32 : 32 ≤ c.toNat) :
    processChar s c = printChar s c := by
  unfold processChar
  rw [hnorm]
  unfold handleNormalChar
  dsimp only
  rw [if_neg (by omega), if_neg (by omega), if_neg (by omega), if_neg (by omega),
      if_neg (by omega), if_neg (by omega), if_pos hc32]

theorem printChar_wrap (s : VTState) (c : Char)
    (hx : s.cursor.x ≥ (s.cols : Int)) (hy : ¬(s.cursor.y ≥ (s.rows : Int) - 1)) :
    printChar s c =
      { s with buffer := setCell s.buffer (s.cursor.y + 1) 0 ⟨c, s.currentAttr⟩,
               cursor := ⟨1, s.cursor.y + 1⟩ } := by
  unfold printChar
  dsimp only
  rw [if_pos hx]
  unfold lineFeed
  dsimp only
  rw [if_neg hy]
  rfl

theorem processChars_cons (s : VTState) (c : Char) (rest : List Char) :
    processChars s (c :: rest) = processChars (processChar s c) rest := rfl

theorem rowSet_eq_set (row : List Cell) (i : Nat) (c : Cell) (h : i < row.length) :
    rowSet row i c = row.set i c := by
  unfold rowSet
  rw [if_pos h]

end VT

namespace VT

theorem processChar_wrapStep (s : VTState) (c : Char)
    (hnorm : s.parseState.state = PMode.normal) (hc32 : 32 ≤ c.toNat)
    (hx : s.cursor.x ≥ (s.cols : Int)) (hy : ¬(s.cursor.y ≥ (s.rows : Int) - 1)) :
    processChar s c =
      { s with buffer := setCell s.buffer (s.cursor.y + 1) 0 ⟨c, s.currentAttr⟩,
               cursor := ⟨1, s.cursor.y + 1⟩ } := by
  rw [processChar_print s c hnorm hc32, printChar_wrap s c hx hy]

/-- C7: writing cols + k printable characters (0 < k ≤ cols) to a fresh
terminal with at least two rows leaves row 0 holding the first cols
characters and the first k cells of row 1 holding the remaining k, with the
cursor at (k, 1); in particular new(5,3) followed by write "HelloWorld"
gives row 0 "Hello", row 1 "World" and cursor (5, 1). -/
theorem claim7_wrap :
    (∀ (cols rows k : Nat) (data : List Char),
      2 ≤ rows → 0 < k → k ≤ cols → data.length = cols + k →
      (∀ c ∈ data, 32 ≤ c.toNat) →
      rowChars (write (initState cols rows) data) 0 = data.take cols ∧
      (rowChars (write (initState cols rows) data) 1).take k = data.drop cols ∧
      (write (initState cols rows) data).cursor = ⟨(k : Int), 1⟩) ∧
    (rowChars (write (initState 5 3) ("HelloWorld").toList) 0 = ("Hello").toList ∧
     rowChars (write (initState 5 3) ("HelloWorld").toList) 1 = ("World").toList ∧
     (write (initState 5 3) ("HelloWorld").toList).cursor = ⟨5, 1⟩) := by
  constructor
  · intro cols rows k data hrows hk hkc hlen hp
    have hcols0 : 0 < cols := by omega
    have hA : (data.take cols).length = cols := by
      rw [List.length_take]
      omega
    obtain ⟨c0, B, hsplit⟩ : ∃ c0 B, data.drop cols = c0 :: B := by
      cases hd : data.drop cols with
      | nil =>
        have hdl : (data.drop cols).length = k := by
          rw [List.length_drop]
          omega
        rw [hd] at hdl
        simp at hdl
        omega
      | cons a l => exact ⟨a, l, rfl⟩
    have hB : B.length = k - 1 := by
      have hdl : (data.drop cols).length = k := by
        rw [List.length_drop]
        omega
      rw [hsplit] at hdl
      simp at hdl
      omega
    have hdata : data = data.take cols ++ (c0 :: B) := by
      rw [← hsplit, List.take_append_drop]
    have hc0 : 32 ≤ c0.toNat := by
      refine hp c0 ?_
      rw [hdata]
      exact List.mem_append_right _ (List.mem_cons_self _ _)
    have h1 : processChars (initState cols rows) (data.take cols) =
        { initState cols rows with
            buffer := bufFill defaultAttr (createEmptyBuffer cols rows defaultAttr) 0 0
              (data.take cols),
            cursor := ⟨(cols : Int), 0⟩ } := by
      rw [processChars_printRun (data.take cols) (initState cols rows) 0 0 (by omega) rfl
        (fun c hc => hp c (List.take_subset _ _ hc)) rfl
        (by show (0 : Int) + ((data.take cols).length : Int) ≤ ((cols : Nat) : Int)
            rw [hA]
            omega)]
      rw [show ((0 : Int) + ((data.take cols).length : Int)) = ((cols : Nat) : Int) from by
        rw [hA]
        omega]
      rfl
    have h2 : processChar ({ initState cols rows with
            buffer := bufFill defaultAttr (createEmptyBuffer cols rows defaultAttr) 0 0
              (data.take cols),
            cursor := ⟨(cols : Int), 0⟩ } : VTState) c0 =
        { initState cols rows with
            buffer := setCell (bufFill defaultAttr (createEmptyBuffer cols rows defaultAttr)
              0 0 (data.take cols)) 1 0 ⟨c0, defaultAttr⟩,
            cursor := ⟨1, 1⟩ } := by
      rw [processChar_wrapStep]
      · rfl
      · rfl
      · exact hc0
      · show ((cols : Nat) : Int) ≥ ((cols : Nat) : Int)
        omega
      · show ¬((0 : Int) ≥ ((rows : Nat) : Int) - 1)
        omega
    have h3 : processChars ({ initState cols rows with
            buffer := setCell (bufFill defaultAttr (createEmptyBuffer cols rows defaultAttr)
              0 0 (data.take cols)) 1 0 ⟨c0, defaultAttr⟩,
            cursor := ⟨1, 1⟩ } : VTState) B =
        { initState cols rows with
            buffer := bufFill defaultAttr (setCell (bufFill defaultAttr
              (createEmptyBuffer cols rows defaultAttr) 0 0 (data.take cols)) 1 0
              ⟨c0, defaultAttr⟩) 1 1 B,
            cursor := ⟨1 + (B.length : Int), 1⟩ } := by
      refine Eq.trans (processChars_printRun B _ 1 1 (by omega) rfl ?_ rfl ?_) ?_
      · intro c hc
        refine hp c ?_
        rw [hdata]
        exact List.mem_append_right _ (List.mem_cons_of_mem _ hc)
      · show (1 : Int) + (B.length : Int) ≤ ((cols : Nat) : Int)
        omega
      · rfl
    have hchain : processChars (initState cols rows) data =
        { initState cols rows with
            buffer := bufFill defaultAttr (setCell (bufFill defaultAttr
              (createEmptyBuffer cols rows defaultAttr) 0 0 (data.take cols)) 1 0
              ⟨c0, defaultAttr⟩) 1 1 B,
            cursor := ⟨1 + (B.length : Int), 1⟩ } := by
      conv_lhs => rw [hdata]
      rw [processChars_append, h1, processChars_cons, h2, h3]
    have hbuf : (write (initState cols rows) data).buffer =
        bufFill defaultAttr (setCell (bufFill defaultAttr
          (createEmptyBuffer cols rows defaultAttr) 0 0 (data.take cols)) 1 0
          ⟨c0, defaultAttr⟩) 1 1 B := by
      rw [(write_buffer_cursor (initState cols rows) data).1, hchain]
    have hcur : (write (initState cols rows) data).cursor = ⟨1 + (B.length : Int), 1⟩ := by
      rw [(write_buffer_cursor (initState cols rows) data).2, hchain]
    refine ⟨?_, ?_, ?_⟩
    · rw [rowChars_getRow, hbuf]
      simp only [Nat.cast_zero]
      rw [bufFill_getRow_ne]
      rw [getRow_setCell_ne]
      have hg0 := bufFill_getRow_self defaultAttr (data.take cols)
        (createEmptyBuffer cols rows defaultAttr) 0 0
        (by rw [createEmptyBuffer_length]; omega)
      simp only [Nat.cast_zero] at hg0
      rw [hg0]
      have hge0 := getRow_createEmptyBuffer cols rows defaultAttr 0 (by omega)
      simp only [Nat.cast_zero] at hge0
      rw [hge0]
      rw [rowFill_map]
      rw [blankRow_map_char, hA]
      rw [List.take_zero]
      rw [List.drop_of_length_le]
      · simp
      all_goals first
        | decide
        | (simp only [blankRow, List.length_replicate, List.length_set, hA]; omega)
    · rw [rowChars_getRow, hbuf]
      simp only [Nat.cast_one]
      have hg1 := bufFill_getRow_self defaultAttr B
        (setCell (bufFill defaultAttr (createEmptyBuffer cols rows defaultAttr) 0 0
          (data.take cols)) 1 0 ⟨c0, defaultAttr⟩) 1 1
        (by rw [setCell_length, bufFill_length, createEmptyBuffer_length]; omega)
      simp only [Nat.cast_one] at hg1
      rw [hg1]
      have hgs := getRow_setCell_self (bufFill defaultAttr (createEmptyBuffer cols rows
          defaultAttr) 0 0 (data.take cols)) 1 0 ⟨c0, defaultAttr⟩ (by decide) (by decide)
        (by rw [bufFill_length, createEmptyBuffer_length]; omega)
      rw [hgs]
      rw [bufFill_getRow_ne]
      have hge1 := getRow_createEmptyBuffer cols rows defaultAttr 1 (by omega)
      simp only [Nat.cast_one] at hge1
      rw [hge1]
      rw [show ((0 : Int)).toNat = 0 from rfl]
      rw [rowSet_eq_set]
      rw [rowFill_map]
      rw [List.map_set, blankRow_map_char]
      dsimp only
      rw [hsplit]
      have h5 : (List.replicate cols (' ' : Char)).set 0 c0 =
          c0 :: List.replicate (cols - 1) (' ' : Char) := by
        obtain ⟨m, hm⟩ : ∃ m, cols = m + 1 := ⟨cols - 1, by omega⟩
        subst hm
        rw [List.replicate_succ, List.set_cons_zero]
        simp
      rw [h5]
      rw [show (c0 :: List.replicate (cols - 1) (' ' : Char)).take 1 = [c0] from rfl]
      rw [List.singleton_append]
      rw [show k = B.length + 1 from by omega]
      rw [show B.length + 1 = (c0 :: B).length from (List.length_cons _ _).symm]
      rw [List.take_left]
      all_goals first
        | decide
        | (simp only [blankRow, List.length_replicate, List.length_set, hB]; omega)
    · rw [hcur]
      rw [show (1 : Int) + (B.length : Int) = ((k : Nat) : Int) from by omega]
  · exact ⟨by decide, by decide, by decide⟩

/-- Witness for C7: the general wrap statement applied at cols = 5, rows = 3,
k = 5 and data = "HelloWorld". -/
theorem claim7_witness :
    rowChars (write (initState 5 3) ("HelloWorld").toList) 0 =
      ("HelloWorld").toList.take 5 ∧
    (rowChars (write (initState 5 3) ("HelloWorld").toList) 1).take 5 =
      ("HelloWorld").toList.drop 5 ∧
    (write (initState 5 3) ("HelloWorld").toList).cursor = ⟨((5 : Nat) : Int), 1⟩ :=
  claim7_wrap.1 5 3 5 ("HelloWorld").toList (by decide) (by decide) (by decide)
    (by decide) (by decide)

end VT
